import Mathlib

/-!
# Task-graph validator (`pkg/run/validator.go`)

A shallow embedding of the validator of the task runner: the per-task rule
check `validateTask` and the collection check `validate`, with the facts the
specification states about them.

Conventions of the embedding.

* A Go `string` is a Lean `String` (a sequence of Unicode code points, so the
  strings are taken to be valid UTF-8: ranging over a string visits its
  characters, and a byte prefix is a character prefix); `fmt.Sprintf` and
  `fmt.Errorf` with `%s` verbs are string concatenation, and an `error` is the
  text of its message.
* `append(problems, x)` is `problems ++ [x]`; a `for ... range` loop over a
  slice is a left fold over the list.
* A Go map has pairwise distinct keys and no fixed iteration order.  `Tasks`
  carries the entries with a proof that the keys are distinct, and `validate`
  takes the order of each of its two `range ts` loops as an argument; the
  theorems assume only that each order is a permutation of the entries.
* The standard library (`filepath.Join`, `filepath.Abs`, `os.PathSeparator`)
  is a parameter, `Platform`.
-/

namespace Run

/-! ## Data model -/

/-- Metadata view of a task (`t.Metadata()`): the five fields the validator reads. -/
structure TaskMetadata where
  ID : String
  «Type» : String
  Dependencies : List String
  Triggers : List String
  Watch : List String
  deriving DecidableEq, Repr

/-- Modelled from the spec: the `Task` interface and its `scriptTask`
implementation are declared outside `validator.go`.  Every variant exposes a
metadata view; the script variant owns a command string (`script`) and a
working directory (`dir`); any other variant has neither. -/
inductive Task where
  | scriptTask (script : String) (dir : String) (md : TaskMetadata)
  | otherTask (md : TaskMetadata)
  deriving DecidableEq, Repr

/-- Method `t.Metadata()`. -/
def Task.Metadata : Task → TaskMetadata
  | .scriptTask _ _ md => md
  | .otherTask md => md

/-- Type assertion `s, isScript := t.(*scriptTask)`: the pair `(s.script, s.dir)`
when `t` is a script task. -/
def Task.asScript : Task → Option (String × String)
  | .scriptTask script dir _ => some (script, dir)
  | .otherTask _ => none

/-- Modelled from the spec: `Tasks` is the map type `map[string]Task`, declared
outside `validator.go`: the entries of the map, with pairwise distinct keys. -/
structure Tasks where
  entries : List (String × Task)
  nodupKeys : (entries.map Prod.fst).Nodup

/-- Map lookup `ts[id]` (the comma-ok form): the task stored under key `id`. -/
def Tasks.get (ts : Tasks) (id : String) : Option Task :=
  ts.entries.lookup id

/-- The collection with zero tasks. -/
def Tasks.empty : Tasks := ⟨[], List.nodup_nil⟩

/-- The parts of the Go standard library the validator calls, as a parameter:
`os.PathSeparator`, `filepath.Join` and `filepath.Abs` (which can fail). -/
structure Platform where
  PathSeparator : Char
  Join : String → String → String
  Abs : String → Except String String

/-- Validator: `type validator struct{ cwd string }`. -/
structure validator where
  cwd : String
  deriving DecidableEq, Repr

/-- Constructor `newValidator`: the zero value, an empty anchor. -/
def newValidator : validator := ⟨""⟩

/-- Constructor `newValidatorWithCWD`: anchors the validator at `filepath.Abs(cwd)`. -/
def newValidatorWithCWD (P : Platform) (cwd : String) : Except String validator :=
  match P.Abs cwd with
  | .error err => .error err
  | .ok abs => .ok ⟨abs⟩

/-! ## Library functions -/

deriving instance DecidableEq for Except

/-- Go `unicode.IsSpace`: in Latin-1 the characters tab, LF, VT, FF, CR, space,
U+0085 and U+00A0; beyond Latin-1 the code points with the Unicode property
`White_Space`. -/
def IsSpace (c : Char) : Bool :=
  let n := c.toNat
  (0x09 ≤ n && n ≤ 0x0D) || n == 0x20 || n == 0x85 || n == 0xA0 || n == 0x1680 ||
    (0x2000 ≤ n && n ≤ 0x200A) || n == 0x2028 || n == 0x2029 || n == 0x202F ||
    n == 0x205F || n == 0x3000

/-- Go `strings.HasPrefix(s, pre)`. -/
def HasPrefix (s pre : String) : Bool :=
  pre.data.isPrefixOf s.data

/-- Go `strings.Join(elems, sep)`. -/
def Join (elems : List String) (sep : String) : String :=
  match elems with
  | [] => ""
  | e :: es => es.foldl (fun acc x => acc ++ sep ++ x) e

/-! ## Problem texts of `validateTask` (the format strings of the source) -/

/-- Rule 1. -/
def msgNoID : String := "Task has no ID."

/-- Rule 2. -/
def msgReserved (id : String) : String :=
  "'" ++ id ++ "' is reserved and cannot be used as a task ID."

/-- Rule 3. -/
def msgWhitespace : String := "Task IDs cannot contain whitespace characters."

/-- Rule 4. -/
def msgInvalidType (id ty : String) : String :=
  "Task '" ++ id ++ "' has invalid type '" ++ ty ++ "'; must be 'long', 'short', or 'group'."

/-- Rule 5a. -/
def msgGroupNoDeps (id : String) : String :=
  "Task '" ++ id ++ "' is a group, but has no dependencies. Groups must include at least one dependency."

/-- Rule 5b. -/
def msgGroupTriggers (id : String) : String :=
  "Task '" ++ id ++ "' is a group, but has triggers. Groups may not have triggers."

/-- Rule 5c. -/
def msgGroupWatch (id : String) : String :=
  "Task '" ++ id ++ "' is a group, but has watch. Groups may not have watch."

/-- Rule 5d. -/
def msgGroupCmd (id : String) : String :=
  "Task '" ++ id ++ "' is a group, but has a cmd. The cmd will not be executed."

/-- Rule 6. -/
def msgNoCmd (id : String) : String :=
  "Task '" ++ id ++ "' is not a group, but has no cmd. It should be a group."

/-- Rule 7. -/
def msgDepMissing (id dep : String) : String :=
  "Task '" ++ id ++ "' lists dependency '" ++ dep ++ "', which is not the ID of a task."

/-- Rule 8. -/
def msgTriggerMissing (id trig : String) : String :=
  "Task '" ++ id ++ "' lists trigger '" ++ trig ++ "', which is not the ID of a task."

/-- Rule 9. -/
def msgTriggerLong (id trig : String) : String :=
  "Task '" ++ id ++ "' lists trigger '" ++ trig ++
    "', which is long. Long tasks aren't expected to end, so using them as triggers is invalid."

/-- Rule 10. -/
def msgWatchAbsolute (id path : String) : String :=
  "Task '" ++ id ++ "' wants to watch path '" ++ path ++ "', which is absolute."

/-- Rule 11, resolution failure. -/
def msgWatchResolve (id path err : String) : String :=
  "Task '" ++ id ++ "' had an error resolving path '" ++ path ++ "': " ++ err ++ "."

/-- Rule 11, containment failure. -/
def msgWatchOutside (id path : String) : String :=
  "Task '" ++ id ++ "' wants to watch path '" ++ path ++ "', which is outside of the working directory."

/-- Problem text of the key check of `validate` (with its leading `"- "`). -/
def msgMismatchedKey (id key : String) : String :=
  "- task '" ++ id ++ "' has mismatched key '" ++ key ++ "'"

/-! ## The validator -/

/-- Body of the loop over `meta.ID` (lines 59-63): one problem per whitespace rune. -/
def whitespaceStep (problems : List String) (c : Char) : List String :=
  if IsSpace c then problems ++ [msgWhitespace] else problems

/-- Body of the loop over `meta.Dependencies` (lines 92-96). -/
def dependencyStep (ts : Tasks) (md : TaskMetadata) (problems : List String) (id : String) :
    List String :=
  match ts.get id with
  | none => problems ++ [msgDepMissing md.ID id]
  | some _ => problems

/-- Body of the loop over `meta.Triggers` (lines 98-104). -/
def triggerStep (ts : Tasks) (md : TaskMetadata) (problems : List String) (id : String) :
    List String :=
  match ts.get id with
  | none => problems ++ [msgTriggerMissing md.ID id]
  | some source =>
    if source.Metadata.«Type» = "long" then problems ++ [msgTriggerLong md.ID id] else problems

/-- Body of the loop over `meta.Watch` (lines 106-117). -/
def watchStep (P : Platform) (v : validator) (t : Task) (md : TaskMetadata)
    (problems : List String) (path : String) : List String :=
  let problems :=
    if HasPrefix path (String.singleton P.PathSeparator) then
      problems ++ [msgWatchAbsolute md.ID path]
    else problems
  match t.asScript with
  | some (_, dir) =>
    match P.Abs (P.Join dir path) with
    | .error err => problems ++ [msgWatchResolve md.ID path err]
    | .ok abs =>
      if !HasPrefix abs v.cwd then problems ++ [msgWatchOutside md.ID path] else problems
  | none => problems

/-- The block on the task's type (lines 69-90): rules 5a-5d for a group, rule 6
otherwise. -/
def typeBlock (t : Task) (md : TaskMetadata) (problems : List String) : List String :=
  if md.«Type» = "group" then
    let problems :=
      if md.Dependencies.length = 0 then problems ++ [msgGroupNoDeps md.ID] else problems
    let problems :=
      if md.Triggers.length > 0 then problems ++ [msgGroupTriggers md.ID] else problems
    let problems :=
      if md.Watch.length > 0 then problems ++ [msgGroupWatch md.ID] else problems
    match t.asScript with
    | some (script, _) => if script ≠ "" then problems ++ [msgGroupCmd md.ID] else problems
    | none => problems
  else
    match t.asScript with
    | some (script, _) => if script = "" then problems ++ [msgNoCmd md.ID] else problems
    | none => problems

/-- Method `validator.validateTask` (lines 47-120). -/
def validateTask (P : Platform) (v : validator) (ts : Tasks) (t : Task) : List String :=
  let problems : List String := []
  let md := t.Metadata
  let problems := if md.ID = "" then problems ++ [msgNoID] else problems
  let problems :=
    if md.ID = "interleaved" ∨ md.ID = "run" then problems ++ [msgReserved md.ID] else problems
  let problems := md.ID.data.foldl whitespaceStep problems
  let problems :=
    if md.«Type» ≠ "long" ∧ md.«Type» ≠ "short" ∧ md.«Type» ≠ "group" then
      problems ++ [msgInvalidType md.ID md.«Type»]
    else problems
  let problems := typeBlock t md problems
  let problems := md.Dependencies.foldl (dependencyStep ts md) problems
  let problems := md.Triggers.foldl (triggerStep ts md) problems
  let problems := md.Watch.foldl (watchStep P v t md) problems
  problems

/-- Body of the first loop of `validate` (lines 30-35).  The set `ids` the loop
also fills is never read, and is left out. -/
def keyStep (problems : List String) (e : String × Task) : List String :=
  if e.1 ≠ e.2.Metadata.ID then problems ++ [msgMismatchedKey e.2.Metadata.ID e.1]
  else problems

/-- Body of the second loop of `validate` (lines 36-40). -/
def taskStep (P : Platform) (v : validator) (ts : Tasks) (problems : List String)
    (e : String × Task) : List String :=
  (validateTask P v ts e.2).foldl (fun ps err => ps ++ ["- " ++ err]) problems

/-- The slice `problems` of `validate` when line 41 is reached; `keyOrder` and
`taskOrder` are the orders in which the two `range ts` loops visit the map. -/
def validateProblems (P : Platform) (v : validator) (ts : Tasks)
    (keyOrder taskOrder : List (String × Task)) : List String :=
  let problems : List String := []
  let problems := keyOrder.foldl keyStep problems
  let problems := taskOrder.foldl (taskStep P v ts) problems
  problems

/-- Method `validator.validate` (lines 26-45): `.ok ()` is the `nil` error. -/
def validate (P : Platform) (v : validator) (ts : Tasks)
    (keyOrder taskOrder : List (String × Task)) : Except String Unit :=
  let problems := validateProblems P v ts keyOrder taskOrder
  if problems.length ≠ 0 then
    .error (Join (["invalid taskfile"] ++ problems) "\n")
  else .ok ()

/-! ## Contribution of each rule (used to state the normal form of the loops) -/

/-- Problems one rune of the ID contributes (rule 3). -/
def whitespaceOut (c : Char) : List String :=
  if IsSpace c then [msgWhitespace] else []

/-- Problems one dependency contributes (rule 7). -/
def dependencyOut (ts : Tasks) (md : TaskMetadata) (id : String) : List String :=
  match ts.get id with
  | none => [msgDepMissing md.ID id]
  | some _ => []

/-- Problems one trigger contributes (rules 8 and 9). -/
def triggerOut (ts : Tasks) (md : TaskMetadata) (id : String) : List String :=
  match ts.get id with
  | none => [msgTriggerMissing md.ID id]
  | some source => if source.Metadata.«Type» = "long" then [msgTriggerLong md.ID id] else []

/-- Problems one watch path contributes (rules 10 and 11). -/
def watchOut (P : Platform) (v : validator) (t : Task) (md : TaskMetadata) (path : String) :
    List String :=
  (if HasPrefix path (String.singleton P.PathSeparator) then [msgWatchAbsolute md.ID path]
    else []) ++
  (match t.asScript with
    | some (_, dir) =>
      match P.Abs (P.Join dir path) with
      | .error err => [msgWatchResolve md.ID path err]
      | .ok abs => if !HasPrefix abs v.cwd then [msgWatchOutside md.ID path] else []
    | none => [])

/-- Problems of the block on the task's type (rules 5a-5d and 6). -/
def typeOut (t : Task) (md : TaskMetadata) : List String :=
  if md.«Type» = "group" then
    (if md.Dependencies.length = 0 then [msgGroupNoDeps md.ID] else []) ++
    (if md.Triggers.length > 0 then [msgGroupTriggers md.ID] else []) ++
    (if md.Watch.length > 0 then [msgGroupWatch md.ID] else []) ++
    (match t.asScript with
      | some (script, _) => if script ≠ "" then [msgGroupCmd md.ID] else []
      | none => [])
  else
    match t.asScript with
    | some (script, _) => if script = "" then [msgNoCmd md.ID] else []
    | none => []

/-- Problems one entry contributes to the key check of `validate`. -/
def keyOut (e : String × Task) : List String :=
  if e.1 ≠ e.2.Metadata.ID then [msgMismatchedKey e.2.Metadata.ID e.1] else []

/-- Problems one entry contributes to the second loop of `validate`. -/
def taskOut (P : Platform) (v : validator) (ts : Tasks) (e : String × Task) : List String :=
  (validateTask P v ts e.2).map (fun err => "- " ++ err)

/-! ## The specification's reading of the result -/

/-- `join(dir, path)` resolves without error to a path that has the anchor as a
string prefix. -/
def ResolvesWithin (P : Platform) (v : validator) (dir path : String) : Prop :=
  match P.Abs (P.Join dir path) with
  | .ok abs => HasPrefix abs v.cwd = true
  | .error _ => False

instance (P : Platform) (v : validator) (dir path : String) :
    Decidable (ResolvesWithin P v dir path) := by
  unfold ResolvesWithin; split <;> infer_instance

/-- Well-formedness of one entry `(key, t)` of `ts`, clause by clause; a clause
"for a script variant" ranges over the result of the type assertion. -/
def EntryWellFormed (P : Platform) (v : validator) (ts : Tasks) (key : String) (t : Task) :
    Prop :=
  key = t.Metadata.ID ∧
  t.Metadata.ID ≠ "" ∧ t.Metadata.ID ≠ "interleaved" ∧ t.Metadata.ID ≠ "run" ∧
  (∀ c ∈ t.Metadata.ID.data, IsSpace c = false) ∧
  (t.Metadata.«Type» = "long" ∨ t.Metadata.«Type» = "short" ∨ t.Metadata.«Type» = "group") ∧
  (t.Metadata.«Type» = "group" →
    t.Metadata.Dependencies ≠ [] ∧ t.Metadata.Triggers = [] ∧ t.Metadata.Watch = [] ∧
    ∀ s ∈ t.asScript, s.1 = "") ∧
  (t.Metadata.«Type» ≠ "group" → ∀ s ∈ t.asScript, s.1 ≠ "") ∧
  (∀ d ∈ t.Metadata.Dependencies, ∃ e ∈ ts.entries, e.2.Metadata.ID = d) ∧
  (∀ g ∈ t.Metadata.Triggers, ∃ e ∈ ts.entries, e.2.Metadata.ID = g) ∧
  (∀ g ∈ t.Metadata.Triggers, ∀ e ∈ ts.entries,
    e.2.Metadata.ID = g → e.2.Metadata.«Type» ≠ "long") ∧
  (∀ w ∈ t.Metadata.Watch,
    HasPrefix w (String.singleton P.PathSeparator) = false ∧
    ∀ s ∈ t.asScript, ResolvesWithin P v s.2 w)

/-- Well-formed collection: every entry is well-formed. -/
def WellFormed (P : Platform) (v : validator) (ts : Tasks) : Prop :=
  ∀ e ∈ ts.entries, EntryWellFormed P v ts e.1 e.2

instance (P : Platform) (v : validator) (ts : Tasks) (key : String) (t : Task) :
    Decidable (EntryWellFormed P v ts key t) := by
  unfold EntryWellFormed; infer_instance

instance (P : Platform) (v : validator) (ts : Tasks) : Decidable (WellFormed P v ts) := by
  unfold WellFormed; infer_instance

/-- Text of the mismatched-key problem of an entry, without the leading `"- "`. -/
def mismatchedKeyText (e : String × Task) : String :=
  "task '" ++ e.2.Metadata.ID ++ "' has mismatched key '" ++ e.1 ++ "'"

/-- The detected problems of a collection: one mismatched-key problem for every
entry whose key differs from its task's ID, followed by every problem
`validateTask` returns for every task. -/
def detectedProblems (P : Platform) (v : validator) (ts : Tasks)
    (keyOrder taskOrder : List (String × Task)) : List String :=
  (keyOrder.filter (fun e => e.1 ≠ e.2.Metadata.ID)).map mismatchedKeyText ++
    taskOrder.flatMap (fun e => validateTask P v ts e.2)

/-- Body of a report: for each problem a newline, the two characters `"- "` and
the problem text. -/
def reportBody : List String → String
  | [] => ""
  | p :: ps => "\n" ++ "- " ++ p ++ reportBody ps

/-- Text of a report: the header followed by the body. -/
def reportText (problems : List String) : String :=
  "invalid taskfile" ++ reportBody problems

/-! ## Sample data -/

/-- A Unix-like platform for the examples: separator `/`, joining with `/`, and
a resolution that fails on a path containing a NUL character. -/
def samplePlatform : Platform where
  PathSeparator := '/'
  Join := fun dir path => dir ++ "/" ++ path
  Abs := fun path => if path.data.contains (Char.ofNat 0) then .error "invalid argument" else .ok path

/-- A script task `build` watching `src` in `/work`. -/
def sampleBuild : Task :=
  .scriptTask "make" "/work" ⟨"build", "short", [], [], ["src"]⟩

/-- A group `all` depending on `build`. -/
def sampleAll : Task :=
  .otherTask ⟨"all", "group", ["build"], [], []⟩

/-- The well-formed collection with the two tasks above. -/
def sampleTasks : Tasks := ⟨[("build", sampleBuild), ("all", sampleAll)], by decide⟩

/-- A line of the report is a mismatched-key problem when it starts with
the fixed text of that problem, `- task '`. -/
def isMismatchedKeyProblem (line : String) : Bool :=
  HasPrefix line "- task '"

/-- A group `a` without dependencies, of a variant other than script. -/
def sampleGroupA : Task :=
  .otherTask ⟨"a", "group", [], [], []⟩

/-- The collection that stores the group `a` under the key `k`. -/
def sampleMismatched : Tasks := ⟨[("k", sampleGroupA)], by decide⟩

/-- A long-running script task `serve`. -/
def sampleServe : Task :=
  .scriptTask "serve.sh" "/work" ⟨"serve", "long", [], [], []⟩

/-- A script task `deploy` triggered by `build` and by `serve`. -/
def sampleDeploy : Task :=
  .scriptTask "deploy.sh" "/work" ⟨"deploy", "short", [], ["build", "serve"], []⟩

/-- The collection with `build`, `serve` and `deploy`. -/
def sampleTriggerTasks : Tasks :=
  ⟨[("build", sampleBuild), ("serve", sampleServe), ("deploy", sampleDeploy)], by decide⟩

/-- A task whose own ID is `b` and which lists `a` as dependency and as trigger. -/
def sampleAliasedTask : Task :=
  .otherTask ⟨"b", "short", ["a"], ["a"], []⟩

/-- The collection that stores the task above under the key `a`. -/
def sampleAliased : Tasks := ⟨[("a", sampleAliasedTask)], by decide⟩

/-- The script task `x` of the two-task example. -/
def sampleX : Task :=
  .scriptTask "..." "/work" ⟨"x", "short", [], [], []⟩

/-- The script task `y` of the two-task example, triggered by the absent `z`. -/
def sampleY : Task :=
  .scriptTask "..." "/work" ⟨"y", "short", [], ["z"], []⟩

/-- The two-task example collection. -/
def sampleXY : Tasks := ⟨[("x", sampleX), ("y", sampleY)], by decide⟩

/-- The collection with the single entry `(key, t)`. -/
def Tasks.single (key : String) (t : Task) : Tasks :=
  ⟨[(key, t)], by simp⟩

/-- A script task that is a group without dependencies, with a trigger, a watch
path and a command. -/
def sampleWrongGroup : Task :=
  .scriptTask "make" "/work" ⟨"g", "group", [], ["build"], ["src"]⟩

/-- The script task of the whitespace example: ID `b b`, stored under `b`. -/
def sampleB : Task :=
  .scriptTask "echo hi" "/work" ⟨"b b", "short", [], [], []⟩

/-- A script task that uses the reserved ID `run`. -/
def sampleRun : Task :=
  .scriptTask "go run ." "/work" ⟨"run", "long", [], [], []⟩

/-- A script task in `/work/foo` watching the absolute path `/etc`, the relative
path `../foo2`, and a path that cannot be resolved. -/
def sampleWatcher : Task :=
  .scriptTask "make" "/work/foo"
    ⟨"w", "short", [], [], ["/etc", "../foo2", String.mk [Char.ofNat 0]]⟩

/-- A platform whose resolution maps the joined path `/work/foo/../foo2` to
`/work/foo2`, as cleaning the path does, and is `samplePlatform` otherwise. -/
def cleaningPlatform : Platform where
  PathSeparator := '/'
  Join := fun dir path => dir ++ "/" ++ path
  Abs := fun path =>
    if path = "/work/foo/../foo2" then .ok "/work/foo2" else samplePlatform.Abs path

/-- A task of a variant other than script that watches an absolute and a
relative path. -/
def sampleOther : Task :=
  .otherTask ⟨"n", "short", [], [], ["/etc", "../up"]⟩

/-- Go `strings.Split(s, "\n")` on the characters of `s`: the pieces between
the newline characters (one piece more than there are newlines). -/
def splitLines : List Char → List (List Char)
  | [] => [[]]
  | c :: cs =>
    if c = '\n' then [] :: splitLines cs
    else
      match splitLines cs with
      | [] => [[c]]
      | l :: ls => (c :: l) :: ls

/-- The lines of a text: `strings.Split(s, "\n")`. -/
def Lines (s : String) : List String :=
  (splitLines s.data).map String.mk

/-- A task whose type contains a newline character. -/
def sampleNewline : Task :=
  .otherTask ⟨"x", "lo\nng", [], [], []⟩

/-! ## The rule that raises each problem -/

/-- The rules of the rule table of `validateTask`. -/
inductive Rule where
  | r1 | r2 | r3 | r4 | r5a | r5b | r5c | r5d | r6 | r7 | r8 | r9 | r10 | r11
  deriving DecidableEq, Repr

/-- Position of a rule in the rule table (1, 2, 3, 4, 5a, 5b, 5c, 5d, 6, 7, 8, 9,
10, 11). -/
def Rule.number : Rule → Nat
  | .r1 => 1 | .r2 => 2 | .r3 => 3 | .r4 => 4 | .r5a => 5 | .r5b => 6 | .r5c => 7
  | .r5d => 8 | .r6 => 9 | .r7 => 10 | .r8 => 11 | .r9 => 12 | .r10 => 13 | .r11 => 14

/-- Position of the loop of the source that evaluates a rule: rules 8 and 9 are
both evaluated in the loop over the triggers, rules 10 and 11 both in the loop
over the watch paths; every other rule has a position of its own. -/
def Rule.block : Rule → Nat
  | .r1 => 1 | .r2 => 2 | .r3 => 3 | .r4 => 4 | .r5a => 5 | .r5b => 6 | .r5c => 7
  | .r5d => 8 | .r6 => 9 | .r7 => 10 | .r8 => 11 | .r9 => 11 | .r10 => 13 | .r11 => 13

/-- Problems of the block on the task's type, each with its rule. -/
def typeRules (t : Task) (md : TaskMetadata) : List (Rule × String) :=
  if md.«Type» = "group" then
    (if md.Dependencies.length = 0 then [(Rule.r5a, msgGroupNoDeps md.ID)] else []) ++
    (if md.Triggers.length > 0 then [(Rule.r5b, msgGroupTriggers md.ID)] else []) ++
    (if md.Watch.length > 0 then [(Rule.r5c, msgGroupWatch md.ID)] else []) ++
    (match t.asScript with
      | some (script, _) => if script ≠ "" then [(Rule.r5d, msgGroupCmd md.ID)] else []
      | none => [])
  else
    match t.asScript with
    | some (script, _) => if script = "" then [(Rule.r6, msgNoCmd md.ID)] else []
    | none => []

/-- Problems one trigger contributes, each with its rule. -/
def triggerRules (ts : Tasks) (md : TaskMetadata) (id : String) : List (Rule × String) :=
  match ts.get id with
  | none => [(Rule.r8, msgTriggerMissing md.ID id)]
  | some source =>
    if source.Metadata.«Type» = "long" then [(Rule.r9, msgTriggerLong md.ID id)] else []

/-- Problems one watch path contributes, each with its rule. -/
def watchRules (P : Platform) (v : validator) (t : Task) (md : TaskMetadata) (path : String) :
    List (Rule × String) :=
  (if HasPrefix path (String.singleton P.PathSeparator) then
      [(Rule.r10, msgWatchAbsolute md.ID path)]
    else []) ++
  (match t.asScript with
    | some (_, dir) =>
      match P.Abs (P.Join dir path) with
      | .error err => [(Rule.r11, msgWatchResolve md.ID path err)]
      | .ok abs => if !HasPrefix abs v.cwd then [(Rule.r11, msgWatchOutside md.ID path)] else []
    | none => [])

/-- The run of `validateTask` with every problem paired with the rule of the
table that raises it (the statement of the source that appends it), in the order
in which the problems are appended. -/
def validateTaskRules (P : Platform) (v : validator) (ts : Tasks) (t : Task) :
    List (Rule × String) :=
  let md := t.Metadata
  (if md.ID = "" then [(Rule.r1, msgNoID)] else []) ++
  ((if md.ID = "interleaved" ∨ md.ID = "run" then [(Rule.r2, msgReserved md.ID)] else []) ++
  (md.ID.data.flatMap (fun c => if IsSpace c then [(Rule.r3, msgWhitespace)] else []) ++
  ((if md.«Type» ≠ "long" ∧ md.«Type» ≠ "short" ∧ md.«Type» ≠ "group" then
      [(Rule.r4, msgInvalidType md.ID md.«Type»)] else []) ++
  (typeRules t md ++
  (md.Dependencies.flatMap
      (fun id => match ts.get id with
        | none => [(Rule.r7, msgDepMissing md.ID id)]
        | some _ => []) ++
  (md.Triggers.flatMap (triggerRules ts md) ++
  md.Watch.flatMap (watchRules P v t md)))))))

/-- A script task `notify` triggered by the long task `serve` and by the absent
`zzz`, in this order. -/
def sampleNotify : Task :=
  .scriptTask "notify.sh" "/work" ⟨"notify", "short", [], ["serve", "zzz"], []⟩

/-- The blocks of a run are in ascending order and lie between `lo` and `hi`. -/
def OrderedWithin (lo hi : Nat) (l : List (Rule × String)) : Prop :=
  (l.map (fun x => x.1.block)).Pairwise (fun a b => a ≤ b) ∧
  ∀ x ∈ l, lo ≤ x.1.block ∧ x.1.block ≤ hi

/-! ## Normal form of the loops -/

/-- A loop whose body appends `g x` to the accumulator appends the concatenation
of all `g x`. -/
theorem foldl_append_eq {α : Type} (f : List String → α → List String) (g : α → List String)
    (hf : ∀ ps x, f ps x = ps ++ g x) (l : List α) (init : List String) :
    l.foldl f init = init ++ l.flatMap g := by
  induction l generalizing init with
  | nil => simp
  | cons x xs ih => simp [List.foldl_cons, ih, hf, List.flatMap_cons, List.append_assoc]

/-- A conditional append is the append of a conditional list. -/
theorem ite_append_eq (c : Prop) [Decidable c] (ps : List String) (m : String) :
    (if c then ps ++ [m] else ps) = ps ++ (if c then [m] else []) := by
  split <;> simp

theorem whitespaceStep_eq (ps : List String) (c : Char) :
    whitespaceStep ps c = ps ++ whitespaceOut c := by
  unfold whitespaceStep whitespaceOut; split <;> simp

theorem dependencyStep_eq (ts : Tasks) (md : TaskMetadata) (ps : List String) (id : String) :
    dependencyStep ts md ps id = ps ++ dependencyOut ts md id := by
  unfold dependencyStep dependencyOut; split <;> simp

theorem triggerStep_eq (ts : Tasks) (md : TaskMetadata) (ps : List String) (id : String) :
    triggerStep ts md ps id = ps ++ triggerOut ts md id := by
  unfold triggerStep triggerOut; split
  · simp
  · split <;> simp

theorem watchStep_eq (P : Platform) (v : validator) (t : Task) (md : TaskMetadata)
    (ps : List String) (path : String) :
    watchStep P v t md ps path = ps ++ watchOut P v t md path := by
  unfold watchStep watchOut
  cases t.asScript with
  | none => simp only; split_ifs <;> simp
  | some sd =>
    obtain ⟨s, d⟩ := sd
    simp only
    cases P.Abs (P.Join d path) with
    | error err => simp only; split_ifs <;> simp
    | ok abs => simp only; split_ifs <;> simp

theorem typeBlock_eq (t : Task) (md : TaskMetadata) (ps : List String) :
    typeBlock t md ps = ps ++ typeOut t md := by
  unfold typeBlock typeOut
  cases t.asScript with
  | none => simp only; split_ifs <;> simp
  | some sd => simp only; split_ifs <;> simp

/-- The result of `validateTask` is the concatenation of the contributions of
the rules, in the order of the source. -/
theorem validateTask_eq (P : Platform) (v : validator) (ts : Tasks) (t : Task) :
    validateTask P v ts t =
      (if t.Metadata.ID = "" then [msgNoID] else []) ++
      ((if t.Metadata.ID = "interleaved" ∨ t.Metadata.ID = "run" then
        [msgReserved t.Metadata.ID] else []) ++
      (t.Metadata.ID.data.flatMap whitespaceOut ++
      ((if t.Metadata.«Type» ≠ "long" ∧ t.Metadata.«Type» ≠ "short" ∧
          t.Metadata.«Type» ≠ "group" then
        [msgInvalidType t.Metadata.ID t.Metadata.«Type»] else []) ++
      (typeOut t t.Metadata ++
      (t.Metadata.Dependencies.flatMap (dependencyOut ts t.Metadata) ++
      (t.Metadata.Triggers.flatMap (triggerOut ts t.Metadata) ++
      t.Metadata.Watch.flatMap (watchOut P v t t.Metadata))))))) := by
  unfold validateTask
  simp only [foldl_append_eq _ _ whitespaceStep_eq,
    foldl_append_eq _ _ (dependencyStep_eq ts t.Metadata),
    foldl_append_eq _ _ (triggerStep_eq ts t.Metadata),
    foldl_append_eq _ _ (watchStep_eq P v t t.Metadata), typeBlock_eq, ite_append_eq,
    List.append_assoc, List.nil_append]
  split_ifs <;> simp

theorem keyStep_eq (ps : List String) (e : String × Task) : keyStep ps e = ps ++ keyOut e := by
  unfold keyStep keyOut; split_ifs <;> simp

theorem taskStep_eq (P : Platform) (v : validator) (ts : Tasks) (ps : List String)
    (e : String × Task) : taskStep P v ts ps e = ps ++ taskOut P v ts e := by
  unfold taskStep taskOut
  rw [foldl_append_eq _ (fun err => ["- " ++ err]) (fun _ _ => rfl)]
  congr 1
  induction validateTask P v ts e.2 with
  | nil => rfl
  | cons x xs ih => simp [List.flatMap_cons, ih]

/-- The slice `problems` of `validate`: the key problems in the order of the
first loop, then every task's problems in the order of the second. -/
theorem validateProblems_eq (P : Platform) (v : validator) (ts : Tasks)
    (keyOrder taskOrder : List (String × Task)) :
    validateProblems P v ts keyOrder taskOrder =
      keyOrder.flatMap keyOut ++ taskOrder.flatMap (taskOut P v ts) := by
  unfold validateProblems
  simp only [foldl_append_eq _ _ keyStep_eq, foldl_append_eq _ _ (taskStep_eq P v ts),
    List.nil_append]

/-- Function `validate` succeeds exactly when it collected no problem. -/
theorem validate_ok_iff (P : Platform) (v : validator) (ts : Tasks)
    (keyOrder taskOrder : List (String × Task)) :
    validate P v ts keyOrder taskOrder = .ok () ↔
      validateProblems P v ts keyOrder taskOrder = [] := by
  unfold validate
  simp only [ne_eq, List.length_eq_zero]
  split_ifs with h <;> simp [h]

/-! ## Map lookup -/

theorem lookup_eq_none_iff_forall (l : List (String × Task)) (k : String) :
    l.lookup k = none ↔ ∀ e ∈ l, e.1 ≠ k := by
  induction l with
  | nil => simp
  | cons x xs ih =>
    obtain ⟨a, b⟩ := x
    by_cases h : k = a
    · subst h; simp [List.lookup_cons]
    · have h2 : (k == a) = false := by simpa using h
      simp [List.lookup_cons, h2, ih, Ne.symm h]

theorem mem_of_lookup_eq_some (l : List (String × Task)) (k : String) (t : Task)
    (h : l.lookup k = some t) : (k, t) ∈ l := by
  induction l with
  | nil => simp at h
  | cons x xs ih =>
    obtain ⟨a, b⟩ := x
    by_cases hk : k = a
    · subst hk; simp [List.lookup_cons] at h; simp [h]
    · have h2 : (k == a) = false := by simpa using hk
      simp only [List.lookup_cons, h2] at h
      exact List.mem_cons_of_mem _ (ih h)

theorem lookup_eq_some_of_mem (l : List (String × Task)) (hl : (l.map Prod.fst).Nodup)
    (k : String) (t : Task) (h : (k, t) ∈ l) : l.lookup k = some t := by
  induction l with
  | nil => simp at h
  | cons x xs ih =>
    obtain ⟨a, b⟩ := x
    simp only [List.map_cons, List.nodup_cons, List.mem_map, not_exists, not_and] at hl
    rcases List.mem_cons.1 h with h | h
    · cases h; simp [List.lookup_cons]
    · have hk : k ≠ a := fun hka => hl.1 (k, t) h hka
      have h2 : (k == a) = false := by simpa using hk
      simp only [List.lookup_cons, h2]
      exact ih hl.2 h

/-- Lookup `ts[id]` finds `t` exactly when `(id, t)` is an entry of the map. -/
theorem Tasks.get_eq_some_iff (ts : Tasks) (id : String) (t : Task) :
    ts.get id = some t ↔ (id, t) ∈ ts.entries :=
  ⟨mem_of_lookup_eq_some _ _ _, lookup_eq_some_of_mem _ ts.nodupKeys _ _⟩

/-- Lookup `ts[id]` misses exactly when `id` is no key of the map. -/
theorem Tasks.get_eq_none_iff (ts : Tasks) (id : String) :
    ts.get id = none ↔ ∀ e ∈ ts.entries, e.1 ≠ id :=
  lookup_eq_none_iff_forall _ _

/-! ## When a task has no problem -/

theorem whitespaceOut_eq_nil_iff (c : Char) : whitespaceOut c = [] ↔ IsSpace c = false := by
  unfold whitespaceOut; split_ifs with h <;> simp [h]

theorem dependencyOut_eq_nil_iff (ts : Tasks) (md : TaskMetadata) (id : String) :
    dependencyOut ts md id = [] ↔ ∃ s, ts.get id = some s := by
  unfold dependencyOut; cases ts.get id <;> simp

theorem triggerOut_eq_nil_iff (ts : Tasks) (md : TaskMetadata) (id : String) :
    triggerOut ts md id = [] ↔ ∃ s, ts.get id = some s ∧ s.Metadata.«Type» ≠ "long" := by
  unfold triggerOut
  cases ts.get id with
  | none => simp
  | some s => simp only; split_ifs with h <;> simp [h]

theorem watchOut_eq_nil_iff (P : Platform) (v : validator) (t : Task) (md : TaskMetadata)
    (w : String) :
    watchOut P v t md w = [] ↔
      HasPrefix w (String.singleton P.PathSeparator) = false ∧
      ∀ s ∈ t.asScript, ResolvesWithin P v s.2 w := by
  unfold watchOut ResolvesWithin
  cases t.asScript with
  | none => simp
  | some sd =>
    obtain ⟨s, d⟩ := sd
    cases h : P.Abs (P.Join d w) with
    | error err => simp [h]
    | ok abs => simp [h]

theorem typeOut_eq_nil_iff (t : Task) (md : TaskMetadata) :
    typeOut t md = [] ↔
      (md.«Type» = "group" →
        md.Dependencies ≠ [] ∧ md.Triggers = [] ∧ md.Watch = [] ∧ ∀ s ∈ t.asScript, s.1 = "") ∧
      (md.«Type» ≠ "group" → ∀ s ∈ t.asScript, s.1 ≠ "") := by
  unfold typeOut
  cases t.asScript with
  | none =>
    by_cases hg : md.«Type» = "group"
    · simp [hg, List.length_eq_zero, Nat.pos_iff_ne_zero]
    · simp [hg]
  | some sd =>
    by_cases hg : md.«Type» = "group"
    · simp [hg, List.length_eq_zero, Nat.pos_iff_ne_zero]
    · simp [hg]

/-- Function `validateTask` reports nothing exactly when every rule passes
(references are looked up by map key). -/
theorem validateTask_eq_nil_iff (P : Platform) (v : validator) (ts : Tasks) (t : Task) :
    validateTask P v ts t = [] ↔
      t.Metadata.ID ≠ "" ∧ t.Metadata.ID ≠ "interleaved" ∧ t.Metadata.ID ≠ "run" ∧
      (∀ c ∈ t.Metadata.ID.data, IsSpace c = false) ∧
      (t.Metadata.«Type» = "long" ∨ t.Metadata.«Type» = "short" ∨
        t.Metadata.«Type» = "group") ∧
      (t.Metadata.«Type» = "group" →
        t.Metadata.Dependencies ≠ [] ∧ t.Metadata.Triggers = [] ∧ t.Metadata.Watch = [] ∧
        ∀ s ∈ t.asScript, s.1 = "") ∧
      (t.Metadata.«Type» ≠ "group" → ∀ s ∈ t.asScript, s.1 ≠ "") ∧
      (∀ d ∈ t.Metadata.Dependencies, ∃ s, ts.get d = some s) ∧
      (∀ g ∈ t.Metadata.Triggers, ∃ s, ts.get g = some s ∧ s.Metadata.«Type» ≠ "long") ∧
      (∀ w ∈ t.Metadata.Watch,
        HasPrefix w (String.singleton P.PathSeparator) = false ∧
        ∀ s ∈ t.asScript, ResolvesWithin P v s.2 w) := by
  rw [validateTask_eq]
  simp only [List.append_eq_nil, List.flatMap_eq_nil_iff, whitespaceOut_eq_nil_iff,
    dependencyOut_eq_nil_iff, triggerOut_eq_nil_iff, watchOut_eq_nil_iff, typeOut_eq_nil_iff]
  have e1 : (if t.Metadata.ID = "" then [msgNoID] else []) = [] ↔ t.Metadata.ID ≠ "" := by
    split_ifs with h <;> simp [h]
  have e2 : (if t.Metadata.ID = "interleaved" ∨ t.Metadata.ID = "run" then
      [msgReserved t.Metadata.ID] else []) = [] ↔
      t.Metadata.ID ≠ "interleaved" ∧ t.Metadata.ID ≠ "run" := by
    split_ifs with h
    · simp only [List.cons_ne_nil, false_iff, not_and_or, not_not]; simpa using h
    · simpa [not_or] using h
  have e3 : (if t.Metadata.«Type» ≠ "long" ∧ t.Metadata.«Type» ≠ "short" ∧
      t.Metadata.«Type» ≠ "group" then
      [msgInvalidType t.Metadata.ID t.Metadata.«Type»] else []) = [] ↔
      (t.Metadata.«Type» = "long" ∨ t.Metadata.«Type» = "short" ∨
        t.Metadata.«Type» = "group") := by
    split_ifs with h
    · simp only [List.cons_ne_nil, false_iff]; tauto
    · simp only [true_iff]; tauto
  rw [e1, e2, e3]
  simp only [and_assoc]

/-! ## Keys and self-reported IDs -/

/-- When every key is its task's own ID, a key lookup succeeds exactly for the
IDs of the tasks of the collection. -/
theorem get_isSome_iff_id (ts : Tasks) (hK : ∀ e ∈ ts.entries, e.1 = e.2.Metadata.ID)
    (d : String) :
    (∃ s, ts.get d = some s) ↔ ∃ e ∈ ts.entries, e.2.Metadata.ID = d := by
  constructor
  · rintro ⟨s, hs⟩
    have hm := (ts.get_eq_some_iff d s).1 hs
    exact ⟨(d, s), hm, (hK _ hm).symm⟩
  · rintro ⟨e, he, hd⟩
    refine ⟨e.2, (ts.get_eq_some_iff d e.2).2 ?_⟩
    have : e.1 = d := (hK e he).trans hd
    rw [← this]; exact he

/-- When every key is its task's own ID, the task found under a trigger is not
long exactly when no task with that ID is long. -/
theorem get_notLong_iff_id (ts : Tasks) (hK : ∀ e ∈ ts.entries, e.1 = e.2.Metadata.ID)
    (g : String) :
    (∃ s, ts.get g = some s ∧ s.Metadata.«Type» ≠ "long") ↔
      (∃ e ∈ ts.entries, e.2.Metadata.ID = g) ∧
      (∀ e ∈ ts.entries, e.2.Metadata.ID = g → e.2.Metadata.«Type» ≠ "long") := by
  constructor
  · rintro ⟨s, hs, hl⟩
    refine ⟨(get_isSome_iff_id ts hK g).1 ⟨s, hs⟩, ?_⟩
    intro e he hg
    have h1 : e.1 = g := (hK e he).trans hg
    have h2 : ts.get g = some e.2 := (ts.get_eq_some_iff g e.2).2 (by rw [← h1]; exact he)
    rw [hs] at h2
    cases h2
    exact hl
  · rintro ⟨⟨e, he, hg⟩, hall⟩
    have h1 : e.1 = g := (hK e he).trans hg
    exact ⟨e.2, (ts.get_eq_some_iff g e.2).2 (by rw [← h1]; exact he), hall e he hg⟩

theorem keyOut_eq_nil_iff (e : String × Task) : keyOut e = [] ↔ e.1 = e.2.Metadata.ID := by
  unfold keyOut; split_ifs with h <;> simp_all

theorem taskOut_eq_nil_iff (P : Platform) (v : validator) (ts : Tasks) (e : String × Task) :
    taskOut P v ts e = [] ↔ validateTask P v ts e.2 = [] := by
  unfold taskOut; simp

/-- Function `validate` succeeds exactly when every key is its task's ID and no
task has a problem, whatever the two iteration orders. -/
theorem validate_ok_iff_forall (P : Platform) (v : validator) (ts : Tasks)
    (keyOrder taskOrder : List (String × Task))
    (hk : keyOrder.Perm ts.entries) (ht : taskOrder.Perm ts.entries) :
    validate P v ts keyOrder taskOrder = .ok () ↔
      (∀ e ∈ ts.entries, e.1 = e.2.Metadata.ID) ∧
      (∀ e ∈ ts.entries, validateTask P v ts e.2 = []) := by
  rw [validate_ok_iff, validateProblems_eq]
  simp only [List.append_eq_nil, List.flatMap_eq_nil_iff, keyOut_eq_nil_iff,
    taskOut_eq_nil_iff, hk.mem_iff, ht.mem_iff]

/-! ## Claims -/

/-- C3: for every validator (any anchor), `validate` applied to a collection
with zero tasks succeeds. -/
theorem validate_zero_tasks (P : Platform) (v : validator) (ts : Tasks)
    (keyOrder taskOrder : List (String × Task))
    (hk : keyOrder.Perm ts.entries) (ht : taskOrder.Perm ts.entries)
    (h0 : ts.entries.length = 0) :
    validate P v ts keyOrder taskOrder = .ok () := by
  rw [validate_ok_iff_forall P v ts _ _ hk ht]
  have : ts.entries = [] := List.length_eq_zero.1 h0
  simp [this]

/-- C1: for every collection and every anchor, `validate` succeeds (returns no
error) if and only if the collection is well-formed: every entry has its own ID
as key, a non-empty, non-reserved ID without whitespace, a type among
long/short/group, the group and command constraints, dependencies and triggers
that are IDs of tasks of the collection, no long trigger, and watch paths that
are relative and (for a script task) resolve inside the anchor. -/
theorem validate_ok_iff_wellFormed (P : Platform) (v : validator) (ts : Tasks)
    (keyOrder taskOrder : List (String × Task))
    (hk : keyOrder.Perm ts.entries) (ht : taskOrder.Perm ts.entries) :
    validate P v ts keyOrder taskOrder = .ok () ↔ WellFormed P v ts := by
  rw [validate_ok_iff_forall P v ts _ _ hk ht]
  unfold WellFormed EntryWellFormed
  constructor
  · rintro ⟨hK, hT⟩ e he
    have h := (validateTask_eq_nil_iff P v ts e.2).1 (hT e he)
    obtain ⟨h1, h2, h3, h4, h5, h6, h7, h8, h9, h10⟩ := h
    refine ⟨hK e he, h1, h2, h3, h4, h5, h6, h7, ?_, ?_, ?_, h10⟩
    · intro d hd; exact (get_isSome_iff_id ts hK d).1 (h8 d hd)
    · intro g hg; exact ((get_notLong_iff_id ts hK g).1 (h9 g hg)).1
    · intro g hg; exact ((get_notLong_iff_id ts hK g).1 (h9 g hg)).2
  · intro h
    have hK : ∀ e ∈ ts.entries, e.1 = e.2.Metadata.ID := fun e he => (h e he).1
    refine ⟨hK, fun e he => ?_⟩
    obtain ⟨-, h1, h2, h3, h4, h5, h6, h7, h8, h9, h9b, h10⟩ := h e he
    rw [validateTask_eq_nil_iff]
    refine ⟨h1, h2, h3, h4, h5, h6, h7, ?_, ?_, h10⟩
    · intro d hd; exact (get_isSome_iff_id ts hK d).2 (h8 d hd)
    · intro g hg; exact (get_notLong_iff_id ts hK g).2 ⟨h9 g hg, h9b g hg⟩

/-- C3 at the empty collection, for the validator anchored at `/work`. -/
theorem validate_zero_tasks_witness :
    ([] : List (String × Task)).Perm Tasks.empty.entries ∧
    Tasks.empty.entries.length = 0 ∧
    validate samplePlatform ⟨"/work"⟩ Tasks.empty [] [] = .ok () :=
  ⟨List.Perm.refl _, rfl,
    validate_zero_tasks samplePlatform ⟨"/work"⟩ Tasks.empty [] []
      (List.Perm.refl _) (List.Perm.refl _) rfl⟩

/-- C1 at the two-task sample collection, the second loop running in the
opposite order of the first. -/
theorem validate_ok_iff_wellFormed_witness :
    sampleTasks.entries.Perm sampleTasks.entries ∧
    [("all", sampleAll), ("build", sampleBuild)].Perm sampleTasks.entries ∧
    (validate samplePlatform ⟨"/work"⟩ sampleTasks sampleTasks.entries
        [("all", sampleAll), ("build", sampleBuild)] = .ok () ↔
      WellFormed samplePlatform ⟨"/work"⟩ sampleTasks) :=
  ⟨List.Perm.refl _, List.Perm.swap _ _ _,
    validate_ok_iff_wellFormed samplePlatform ⟨"/work"⟩ sampleTasks _ _
      (List.Perm.refl _) (List.Perm.swap _ _ _)⟩

/-! ## The report text -/

theorem foldl_join_eq (qs : List String) (acc : String) :
    (qs.map (fun err => "- " ++ err)).foldl (fun acc x => acc ++ "\n" ++ x) acc =
      acc ++ reportBody qs := by
  induction qs generalizing acc with
  | nil => simp [reportBody]
  | cons q qs ih =>
    rw [List.map_cons, List.foldl_cons, ih]
    simp only [reportBody, String.append_assoc]

/-- Joining the header and the dashed problems with newlines gives the report text. -/
theorem Join_header_eq (qs : List String) :
    Join (["invalid taskfile"] ++ qs.map (fun err => "- " ++ err)) "\n" = reportText qs := by
  simp only [Join, List.singleton_append, reportText]
  exact foldl_join_eq qs _

theorem msgMismatchedKey_eq (e : String × Task) :
    msgMismatchedKey e.2.Metadata.ID e.1 = "- " ++ mismatchedKeyText e := by
  unfold msgMismatchedKey mismatchedKeyText
  simp only [← String.append_assoc]
  rfl

theorem flatMap_keyOut_eq (l : List (String × Task)) :
    l.flatMap keyOut =
      ((l.filter (fun e => e.1 ≠ e.2.Metadata.ID)).map mismatchedKeyText).map
        (fun err => "- " ++ err) := by
  induction l with
  | nil => rfl
  | cons e es ih =>
    by_cases h : e.1 = e.2.Metadata.ID
    · simp [List.flatMap_cons, keyOut, h, ih]
    · simp [List.flatMap_cons, keyOut, h, ih, msgMismatchedKey_eq]

theorem flatMap_taskOut_eq (P : Platform) (v : validator) (ts : Tasks)
    (l : List (String × Task)) :
    l.flatMap (taskOut P v ts) =
      (l.flatMap (fun e => validateTask P v ts e.2)).map (fun err => "- " ++ err) := by
  induction l with
  | nil => rfl
  | cons e es ih => simp [List.flatMap_cons, taskOut, ih]

/-- The slice `problems` of `validate` is the list of detected problems, each
with a leading `"- "`. -/
theorem validateProblems_eq_detected (P : Platform) (v : validator) (ts : Tasks)
    (keyOrder taskOrder : List (String × Task)) :
    validateProblems P v ts keyOrder taskOrder =
      (detectedProblems P v ts keyOrder taskOrder).map (fun err => "- " ++ err) := by
  rw [validateProblems_eq, flatMap_keyOut_eq, flatMap_taskOut_eq, detectedProblems,
    List.map_append]

/-- The value `validate` returns, in terms of the detected problems. -/
theorem validate_eq_report (P : Platform) (v : validator) (ts : Tasks)
    (keyOrder taskOrder : List (String × Task)) :
    validate P v ts keyOrder taskOrder =
      if detectedProblems P v ts keyOrder taskOrder = [] then .ok ()
      else .error (reportText (detectedProblems P v ts keyOrder taskOrder)) := by
  unfold validate
  simp only [validateProblems_eq_detected, Join_header_eq, List.length_map, ne_eq,
    List.length_eq_zero]
  split_ifs <;> simp_all

theorem length_flatMap_eq_sum {α : Type} (f : α → List String) (l : List α) :
    (l.flatMap f).length = (l.map (fun x => (f x).length)).sum := by
  induction l with
  | nil => rfl
  | cons x xs ih => simp [List.flatMap_cons, ih]

/-- The number of detected problems does not depend on the iteration orders. -/
theorem detectedProblems_length (P : Platform) (v : validator) (ts : Tasks)
    (keyOrder taskOrder : List (String × Task))
    (hk : keyOrder.Perm ts.entries) (ht : taskOrder.Perm ts.entries) :
    (detectedProblems P v ts keyOrder taskOrder).length =
      (ts.entries.filter (fun e => e.1 ≠ e.2.Metadata.ID)).length +
      (ts.entries.map (fun e => (validateTask P v ts e.2).length)).sum := by
  unfold detectedProblems
  rw [List.length_append, List.length_map, length_flatMap_eq_sum,
    (hk.filter _).length_eq, (ht.map _).sum_eq]

/-- C2: when `validate` fails, the error text is exactly the header
`invalid taskfile` followed, for each detected problem, by a newline, `"- "`
and the problem text; the detected problems are one mismatched-key problem per
entry whose key differs from its task's ID, then every problem of every task,
and none is dropped: their number is the number of mismatched entries plus the
sum of the lengths of the results of `validateTask`. -/
theorem validate_error_text (P : Platform) (v : validator) (ts : Tasks)
    (keyOrder taskOrder : List (String × Task)) (msg : String)
    (hk : keyOrder.Perm ts.entries) (ht : taskOrder.Perm ts.entries)
    (hfail : validate P v ts keyOrder taskOrder = .error msg) :
    msg = reportText (detectedProblems P v ts keyOrder taskOrder) ∧
    (detectedProblems P v ts keyOrder taskOrder).length =
      (ts.entries.filter (fun e => e.1 ≠ e.2.Metadata.ID)).length +
      (ts.entries.map (fun e => (validateTask P v ts e.2).length)).sum := by
  refine ⟨?_, detectedProblems_length P v ts _ _ hk ht⟩
  rw [validate_eq_report] at hfail
  split_ifs at hfail with h
  exact (Except.error.inj hfail).symm

/-! ## Membership in the result of `validateTask` -/

theorem mem_whitespaceOut_iff (m : String) (c : Char) :
    m ∈ whitespaceOut c ↔ IsSpace c = true ∧ m = msgWhitespace := by
  unfold whitespaceOut; split_ifs with h <;> simp [h]

theorem mem_dependencyOut_iff (ts : Tasks) (md : TaskMetadata) (m d : String) :
    m ∈ dependencyOut ts md d ↔ ts.get d = none ∧ m = msgDepMissing md.ID d := by
  unfold dependencyOut; cases ts.get d <;> simp

theorem mem_triggerOut_iff (ts : Tasks) (md : TaskMetadata) (m g : String) :
    m ∈ triggerOut ts md g ↔
      (ts.get g = none ∧ m = msgTriggerMissing md.ID g) ∨
      (∃ s, ts.get g = some s ∧ s.Metadata.«Type» = "long" ∧ m = msgTriggerLong md.ID g) := by
  unfold triggerOut
  cases ts.get g with
  | none => simp
  | some s => simp only; split_ifs with h <;> simp [h]

theorem mem_ite_singleton (c : Prop) [Decidable c] (m a : String) :
    m ∈ (if c then [a] else []) ↔ c ∧ m = a := by
  split_ifs with h <;> simp [h]

theorem mem_watchOut_iff (P : Platform) (v : validator) (t : Task) (md : TaskMetadata)
    (m w : String) :
    m ∈ watchOut P v t md w ↔
      (HasPrefix w (String.singleton P.PathSeparator) = true ∧ m = msgWatchAbsolute md.ID w) ∨
      (∃ s ∈ t.asScript, ∃ err, P.Abs (P.Join s.2 w) = .error err ∧
        m = msgWatchResolve md.ID w err) ∨
      (∃ s ∈ t.asScript, ∃ abs, P.Abs (P.Join s.2 w) = .ok abs ∧ HasPrefix abs v.cwd = false ∧
        m = msgWatchOutside md.ID w) := by
  unfold watchOut
  cases t.asScript with
  | none => simp [mem_ite_singleton]
  | some sd =>
    obtain ⟨s, d⟩ := sd
    cases h : P.Abs (P.Join d w) with
    | error err => simp [h, mem_ite_singleton]
    | ok abs => simp [h, mem_ite_singleton]

theorem mem_typeOut_iff (t : Task) (md : TaskMetadata) (m : String) :
    m ∈ typeOut t md ↔
      (md.«Type» = "group" ∧ md.Dependencies = [] ∧ m = msgGroupNoDeps md.ID) ∨
      (md.«Type» = "group" ∧ md.Triggers ≠ [] ∧ m = msgGroupTriggers md.ID) ∨
      (md.«Type» = "group" ∧ md.Watch ≠ [] ∧ m = msgGroupWatch md.ID) ∨
      (md.«Type» = "group" ∧ (∃ s ∈ t.asScript, s.1 ≠ "") ∧ m = msgGroupCmd md.ID) ∨
      (md.«Type» ≠ "group" ∧ (∃ s ∈ t.asScript, s.1 = "") ∧ m = msgNoCmd md.ID) := by
  unfold typeOut
  by_cases hg : md.«Type» = "group"
  · cases t.asScript with
    | none => simp [hg, mem_ite_singleton, List.length_eq_zero, Nat.pos_iff_ne_zero, or_assoc]
    | some sd =>
      simp [hg, mem_ite_singleton, List.length_eq_zero, Nat.pos_iff_ne_zero, or_assoc]
  · cases t.asScript with
    | none => simp [hg]
    | some sd => simp [hg, mem_ite_singleton]

/-- Every problem `validateTask` returns is raised by one of the rules, and every
problem a rule raises is returned. -/
theorem mem_validateTask_iff (P : Platform) (v : validator) (ts : Tasks) (t : Task)
    (m : String) :
    m ∈ validateTask P v ts t ↔
      (t.Metadata.ID = "" ∧ m = msgNoID) ∨
      ((t.Metadata.ID = "interleaved" ∨ t.Metadata.ID = "run") ∧
        m = msgReserved t.Metadata.ID) ∨
      ((∃ c ∈ t.Metadata.ID.data, IsSpace c = true) ∧ m = msgWhitespace) ∨
      ((t.Metadata.«Type» ≠ "long" ∧ t.Metadata.«Type» ≠ "short" ∧
          t.Metadata.«Type» ≠ "group") ∧
        m = msgInvalidType t.Metadata.ID t.Metadata.«Type») ∨
      m ∈ typeOut t t.Metadata ∨
      (∃ d ∈ t.Metadata.Dependencies, ts.get d = none ∧ m = msgDepMissing t.Metadata.ID d) ∨
      (∃ g ∈ t.Metadata.Triggers, ts.get g = none ∧ m = msgTriggerMissing t.Metadata.ID g) ∨
      (∃ g ∈ t.Metadata.Triggers, ∃ s, ts.get g = some s ∧ s.Metadata.«Type» = "long" ∧
        m = msgTriggerLong t.Metadata.ID g) ∨
      (∃ w ∈ t.Metadata.Watch, m ∈ watchOut P v t t.Metadata w) := by
  rw [validateTask_eq]
  simp only [List.mem_append, List.mem_flatMap, mem_ite_singleton, mem_whitespaceOut_iff,
    mem_dependencyOut_iff, mem_triggerOut_iff]
  constructor
  · rintro (h | h | ⟨c, hc, h1, h2⟩ | h | h | h | ⟨g, hg, h | h⟩ | h)
    · exact Or.inl h
    · exact Or.inr (Or.inl h)
    · exact Or.inr (Or.inr (Or.inl ⟨⟨c, hc, h1⟩, h2⟩))
    · exact Or.inr (Or.inr (Or.inr (Or.inl h)))
    · exact Or.inr (Or.inr (Or.inr (Or.inr (Or.inl h))))
    · exact Or.inr (Or.inr (Or.inr (Or.inr (Or.inr (Or.inl h)))))
    · exact Or.inr (Or.inr (Or.inr (Or.inr (Or.inr (Or.inr (Or.inl ⟨g, hg, h⟩))))))
    · exact Or.inr (Or.inr (Or.inr (Or.inr (Or.inr (Or.inr (Or.inr (Or.inl ⟨g, hg, h⟩)))))))
    · exact Or.inr (Or.inr (Or.inr (Or.inr (Or.inr (Or.inr (Or.inr (Or.inr h)))))))
  · rintro (h | h | ⟨⟨c, hc, h1⟩, h2⟩ | h | h | h | ⟨g, hg, h⟩ | ⟨g, hg, h⟩ | h)
    · exact Or.inl h
    · exact Or.inr (Or.inl h)
    · exact Or.inr (Or.inr (Or.inl ⟨c, hc, h1, h2⟩))
    · exact Or.inr (Or.inr (Or.inr (Or.inl h)))
    · exact Or.inr (Or.inr (Or.inr (Or.inr (Or.inl h))))
    · exact Or.inr (Or.inr (Or.inr (Or.inr (Or.inr (Or.inl h)))))
    · exact Or.inr (Or.inr (Or.inr (Or.inr (Or.inr (Or.inr (Or.inl ⟨g, hg, Or.inl h⟩))))))
    · exact Or.inr (Or.inr (Or.inr (Or.inr (Or.inr (Or.inr (Or.inl ⟨g, hg, Or.inr h⟩))))))
    · exact Or.inr (Or.inr (Or.inr (Or.inr (Or.inr (Or.inr (Or.inr h))))))

/-! ## Distinctness of the problem texts -/

/-- Two texts that end differently are different. -/
theorem append_ne_of_suffix_ne (a b s1 s2 : List Char) (n : Nat)
    (h1 : n ≤ s1.length) (h2 : n ≤ s2.length)
    (hne : s1.reverse.take n ≠ s2.reverse.take n) : a ++ s1 ≠ b ++ s2 := by
  intro h
  apply hne
  have := congrArg (fun l => l.reverse.take n) h
  simpa [List.reverse_append, List.take_append_of_le_length, h1, h2] using this


/-- Every problem text of `validateTask` starts with a capital `T` or a quote. -/
theorem validateTask_head (P : Platform) (v : validator) (ts : Tasks) (t : Task) (m : String)
    (h : m ∈ validateTask P v ts t) : ∃ r, m.data = 'T' :: r ∨ m.data = '\'' :: r := by
  rw [mem_validateTask_iff] at h
  simp only [mem_typeOut_iff, mem_watchOut_iff] at h
  rcases h with ⟨-, h⟩ | ⟨-, h⟩ | ⟨-, h⟩ | ⟨-, h⟩ |
    (⟨-, -, h⟩ | ⟨-, -, h⟩ | ⟨-, -, h⟩ | ⟨-, -, h⟩ | ⟨-, -, h⟩) | ⟨d, -, -, h⟩ | ⟨g, -, -, h⟩ |
    ⟨g, -, s, -, -, h⟩ | ⟨w, -, (⟨-, h⟩ | ⟨s, -, err, -, h⟩ | ⟨s, -, abs, -, -, h⟩)⟩ <;>
  subst h <;>
  simp [msgNoID, msgReserved, msgWhitespace, msgInvalidType, msgGroupNoDeps, msgGroupTriggers,
    msgGroupWatch, msgGroupCmd, msgNoCmd, msgDepMissing, msgTriggerMissing, msgTriggerLong,
    msgWatchAbsolute, msgWatchResolve, msgWatchOutside]

/-- No line of the second loop of `validate` is a mismatched-key problem. -/
theorem taskOut_not_mismatched (P : Platform) (v : validator) (ts : Tasks)
    (e : String × Task) (line : String) (h : line ∈ taskOut P v ts e) :
    isMismatchedKeyProblem line = false := by
  unfold taskOut at h
  obtain ⟨m, hm, rfl⟩ := List.mem_map.1 h
  obtain ⟨r, hr | hr⟩ := validateTask_head P v ts e.2 m hm <;>
  simp [isMismatchedKeyProblem, HasPrefix, hr, List.isPrefixOf]

/-- Every line of the first loop of `validate` is a mismatched-key problem. -/
theorem keyOut_mismatched (e : String × Task) (line : String) (h : line ∈ keyOut e) :
    isMismatchedKeyProblem line = true := by
  unfold keyOut at h
  rw [mem_ite_singleton] at h
  obtain ⟨-, rfl⟩ := h
  simp [isMismatchedKeyProblem, HasPrefix, msgMismatchedKey, List.isPrefixOf]

/-- The entries of a collection are pairwise distinct, in every iteration order. -/
theorem order_nodup (ts : Tasks) (order : List (String × Task))
    (h : order.Perm ts.entries) : order.Nodup :=
  h.nodup_iff.2 (List.Nodup.of_map _ ts.nodupKeys)

/-- Among the collected problems, the mismatched-key lines are exactly the lines
of the first loop. -/
theorem filter_mismatched_length (P : Platform) (v : validator) (ts : Tasks)
    (keyOrder taskOrder : List (String × Task)) (hk : keyOrder.Perm ts.entries) :
    ((validateProblems P v ts keyOrder taskOrder).filter isMismatchedKeyProblem).length =
      (ts.entries.filter (fun e => e.1 ≠ e.2.Metadata.ID)).length := by
  rw [validateProblems_eq, List.filter_append]
  have h1 : (keyOrder.flatMap keyOut).filter isMismatchedKeyProblem =
      keyOrder.flatMap keyOut := by
    rw [List.filter_eq_self]
    intro line hl
    obtain ⟨e, -, he⟩ := List.mem_flatMap.1 hl
    exact keyOut_mismatched e line he
  have h2 : (taskOrder.flatMap (taskOut P v ts)).filter isMismatchedKeyProblem = [] := by
    rw [List.filter_eq_nil_iff]
    intro line hl
    obtain ⟨e, -, he⟩ := List.mem_flatMap.1 hl
    simp [taskOut_not_mismatched P v ts e line he]
  rw [h1, h2, List.append_nil, flatMap_keyOut_eq, List.length_map, List.length_map,
    (hk.filter _).length_eq]

/-- C4: for every entry whose key differs from its task's own ID, `validate`
fails, the entry is visited once and its visit appends exactly one problem,
`- task '<ID>' has mismatched key '<key>'`, which is in the report; an entry
whose key equals its ID appends nothing; so the number of mismatched-key
problems in the report is the number of entries with key different from ID. -/
theorem validate_mismatched_key (P : Platform) (v : validator) (ts : Tasks)
    (keyOrder taskOrder : List (String × Task)) (hk : keyOrder.Perm ts.entries) :
    (∀ e ∈ ts.entries, e.1 ≠ e.2.Metadata.ID →
      (∃ msg, validate P v ts keyOrder taskOrder = .error msg ∧
        msg = Join (["invalid taskfile"] ++ validateProblems P v ts keyOrder taskOrder) "\n") ∧
      (e ∈ keyOrder ∧ keyOrder.Nodup) ∧
      (∀ ps, keyStep ps e =
        ps ++ ["- task '" ++ e.2.Metadata.ID ++ "' has mismatched key '" ++ e.1 ++ "'"]) ∧
      "- task '" ++ e.2.Metadata.ID ++ "' has mismatched key '" ++ e.1 ++ "'" ∈
        validateProblems P v ts keyOrder taskOrder) ∧
    (∀ e ∈ ts.entries, e.1 = e.2.Metadata.ID → ∀ ps, keyStep ps e = ps) ∧
    ((validateProblems P v ts keyOrder taskOrder).filter isMismatchedKeyProblem).length =
      (ts.entries.filter (fun e => e.1 ≠ e.2.Metadata.ID)).length := by
  refine ⟨fun e he hne => ?_, fun e _ heq ps => ?_,
    filter_mismatched_length P v ts keyOrder taskOrder hk⟩
  · have hmem : msgMismatchedKey e.2.Metadata.ID e.1 ∈
        validateProblems P v ts keyOrder taskOrder := by
      rw [validateProblems_eq]
      refine List.mem_append_left _ (List.mem_flatMap.2 ⟨e, hk.mem_iff.2 he, ?_⟩)
      simp [keyOut, hne]
    refine ⟨?_, ?_, fun ps => ?_, hmem⟩
    · have hne2 : validateProblems P v ts keyOrder taskOrder ≠ [] :=
        List.ne_nil_of_mem hmem
      refine ⟨_, ?_, rfl⟩
      unfold validate
      simp [hne2]
    · exact ⟨hk.mem_iff.2 he, order_nodup ts keyOrder hk⟩
    · simp [keyStep, hne, msgMismatchedKey]
  · simp [keyStep, heq]

/-- C2 at the collection that stores the group `a` under the key `k`. -/
theorem validate_error_text_witness :
    sampleMismatched.entries.Perm sampleMismatched.entries ∧
    validate samplePlatform newValidator sampleMismatched sampleMismatched.entries
        sampleMismatched.entries =
      .error ("invalid taskfile\n- task 'a' has mismatched key 'k'\n" ++
        "- Task 'a' is a group, but has no dependencies. " ++
        "Groups must include at least one dependency.") ∧
    ("invalid taskfile\n- task 'a' has mismatched key 'k'\n" ++
        "- Task 'a' is a group, but has no dependencies. " ++
        "Groups must include at least one dependency." =
      reportText (detectedProblems samplePlatform newValidator sampleMismatched
        sampleMismatched.entries sampleMismatched.entries) ∧
    (detectedProblems samplePlatform newValidator sampleMismatched
        sampleMismatched.entries sampleMismatched.entries).length =
      (sampleMismatched.entries.filter (fun e => e.1 ≠ e.2.Metadata.ID)).length +
      (sampleMismatched.entries.map
        (fun e => (validateTask samplePlatform newValidator sampleMismatched e.2).length)).sum) :=
  ⟨List.Perm.refl _, by decide,
    validate_error_text samplePlatform newValidator sampleMismatched _ _ _
      (List.Perm.refl _) (List.Perm.refl _) (by decide)⟩

/-- C4 at the collection that stores the group `a` under the key `k`. -/
theorem validate_mismatched_key_witness :
    sampleMismatched.entries.Perm sampleMismatched.entries ∧
    ((validateProblems samplePlatform newValidator sampleMismatched sampleMismatched.entries
        sampleMismatched.entries).filter isMismatchedKeyProblem).length = 1 :=
  ⟨List.Perm.refl _,
    (validate_mismatched_key samplePlatform newValidator sampleMismatched
      sampleMismatched.entries sampleMismatched.entries (List.Perm.refl _)).2.2.trans
      (by decide)⟩

/-- A problem raised by a rule is in the result of `validateTask`. -/
theorem mem_validateTask_of_typeOut (P : Platform) (v : validator) (ts : Tasks) (t : Task)
    (m : String) (h : m ∈ typeOut t t.Metadata) : m ∈ validateTask P v ts t :=
  (mem_validateTask_iff P v ts t m).2 (Or.inr (Or.inr (Or.inr (Or.inr (Or.inl h)))))

/-- C10: `validateTask` contains the invalid-type problem of a task if and only
if the task's type is none of long, short, group, whatever the other fields of
the task, the rest of the collection, the platform and the anchor. -/
theorem validateTask_invalidType_iff (P : Platform) (v : validator) (ts : Tasks) (t : Task) :
    "Task '" ++ t.Metadata.ID ++ "' has invalid type '" ++ t.Metadata.«Type» ++
        "'; must be 'long', 'short', or 'group'." ∈ validateTask P v ts t ↔
      (t.Metadata.«Type» ≠ "long" ∧ t.Metadata.«Type» ≠ "short" ∧
        t.Metadata.«Type» ≠ "group") := by
  constructor
  · intro h
    rw [mem_validateTask_iff] at h
    simp only [mem_typeOut_iff, mem_watchOut_iff] at h
    rcases h with ⟨-, h⟩ | ⟨-, h⟩ | ⟨-, h⟩ | ⟨hc, -⟩ |
      (⟨-, -, h⟩ | ⟨-, -, h⟩ | ⟨-, -, h⟩ | ⟨-, -, h⟩ | ⟨-, -, h⟩) | ⟨d, -, -, h⟩ | ⟨g, -, -, h⟩ |
      ⟨g, -, s, -, -, h⟩ | ⟨w, -, (⟨-, h⟩ | ⟨s, -, err, -, h⟩ | ⟨s, -, abs, -, -, h⟩)⟩
    all_goals first
    | exact hc
    | simp [msgNoID, msgReserved, msgWhitespace, msgGroupNoDeps, msgGroupTriggers,
        msgGroupWatch, msgGroupCmd, msgNoCmd, msgDepMissing, msgTriggerMissing, msgTriggerLong,
        msgWatchAbsolute, msgWatchResolve, msgWatchOutside, String.ext_iff] at h
  · intro h
    rw [mem_validateTask_iff]
    exact Or.inr (Or.inr (Or.inr (Or.inl ⟨h, rfl⟩)))

/-- C9: for a group task with at least one dependency, no triggers, no watch
paths and (when it is a script task) an empty command, `validateTask` contains
none of the problems of rules 4, 5a, 5b, 5c, 5d and 6. -/
theorem validateTask_clean_group (P : Platform) (v : validator) (ts : Tasks) (t : Task)
    (hg : t.Metadata.«Type» = "group") (hd : t.Metadata.Dependencies ≠ [])
    (htr : t.Metadata.Triggers = []) (hw : t.Metadata.Watch = [])
    (hs : ∀ s ∈ t.asScript, s.1 = "") :
    (∀ ty, msgInvalidType t.Metadata.ID ty ∉ validateTask P v ts t) ∧
    msgGroupNoDeps t.Metadata.ID ∉ validateTask P v ts t ∧
    msgGroupTriggers t.Metadata.ID ∉ validateTask P v ts t ∧
    msgGroupWatch t.Metadata.ID ∉ validateTask P v ts t ∧
    msgGroupCmd t.Metadata.ID ∉ validateTask P v ts t ∧
    msgNoCmd t.Metadata.ID ∉ validateTask P v ts t := by
  have key : ∀ m, m ∈ validateTask P v ts t →
      m = msgNoID ∨ m = msgReserved t.Metadata.ID ∨ m = msgWhitespace ∨
      ∃ d, m = msgDepMissing t.Metadata.ID d := by
    intro m h
    rw [mem_validateTask_iff] at h
    simp only [mem_typeOut_iff, mem_watchOut_iff, htr, hw, List.not_mem_nil, false_and,
      exists_false, or_false, hg, ne_eq, not_true_eq_false, not_false_eq_true, and_false,
      hd, true_and, false_or] at h
    rcases h with ⟨-, h⟩ | ⟨-, h⟩ | ⟨-, h⟩ | ⟨⟨s, hs1, hs2⟩, -⟩ | ⟨d, -, -, h⟩
    · exact Or.inl h
    · exact Or.inr (Or.inl h)
    · exact Or.inr (Or.inr (Or.inl h))
    · exact absurd (hs s hs1) hs2
    · exact Or.inr (Or.inr (Or.inr ⟨d, h⟩))
  refine ⟨fun ty h => ?_, fun h => ?_, fun h => ?_, fun h => ?_, fun h => ?_, fun h => ?_⟩ <;>
  rcases key _ h with h | h | h | ⟨d, h⟩ <;>
  simp [msgNoID, msgReserved, msgWhitespace, msgInvalidType, msgGroupNoDeps, msgGroupTriggers,
    msgGroupWatch, msgGroupCmd, msgNoCmd, msgDepMissing, String.ext_iff] at h

/-- C9 at the group `all` of the sample collection. -/
theorem validateTask_clean_group_witness :
    sampleAll.Metadata.«Type» = "group" ∧ sampleAll.Metadata.Dependencies ≠ [] ∧
    sampleAll.Metadata.Triggers = [] ∧ sampleAll.Metadata.Watch = [] ∧
    (∀ s ∈ sampleAll.asScript, s.1 = "") ∧
    ((∀ ty, msgInvalidType sampleAll.Metadata.ID ty ∉
        validateTask samplePlatform newValidator sampleTasks sampleAll) ∧
      msgGroupNoDeps sampleAll.Metadata.ID ∉
        validateTask samplePlatform newValidator sampleTasks sampleAll ∧
      msgGroupTriggers sampleAll.Metadata.ID ∉
        validateTask samplePlatform newValidator sampleTasks sampleAll ∧
      msgGroupWatch sampleAll.Metadata.ID ∉
        validateTask samplePlatform newValidator sampleTasks sampleAll ∧
      msgGroupCmd sampleAll.Metadata.ID ∉
        validateTask samplePlatform newValidator sampleTasks sampleAll ∧
      msgNoCmd sampleAll.Metadata.ID ∉
        validateTask samplePlatform newValidator sampleTasks sampleAll) :=
  ⟨rfl, by decide, rfl, rfl, by decide,
    validateTask_clean_group samplePlatform newValidator sampleTasks sampleAll rfl (by decide)
      rfl rfl (by decide)⟩

/-- The long-trigger text determines the trigger it names. -/
theorem msgTriggerLong_inj (id g h : String) (e : msgTriggerLong id g = msgTriggerLong id h) :
    g = h := by
  simp [msgTriggerLong, String.ext_iff] at e
  exact String.ext e

/-- The missing-trigger text determines the trigger it names. -/
theorem msgTriggerMissing_inj (id g h : String)
    (e : msgTriggerMissing id g = msgTriggerMissing id h) : g = h := by
  simp [msgTriggerMissing, String.ext_iff] at e
  exact String.ext e

/-- The missing-trigger and long-trigger texts never coincide. -/
theorem msgTriggerMissing_ne_long (id g h : String) :
    msgTriggerMissing id g ≠ msgTriggerLong id h := by
  simp only [msgTriggerMissing, msgTriggerLong, ne_eq, String.ext_iff, String.data_append,
    List.append_assoc, List.append_cancel_left_eq]
  exact append_ne_of_suffix_ne _ _ _ _ 2 (by decide) (by decide) (by decide)

/-- A long-trigger problem in the result of `validateTask` comes from rule 9. -/
theorem mem_validateTask_triggerLong (P : Platform) (v : validator) (ts : Tasks) (t : Task)
    (g : String) (h : msgTriggerLong t.Metadata.ID g ∈ validateTask P v ts t) :
    g ∈ t.Metadata.Triggers ∧ ∃ s, ts.get g = some s ∧ s.Metadata.«Type» = "long" := by
  rw [mem_validateTask_iff] at h
  simp only [mem_typeOut_iff, mem_watchOut_iff] at h
  rcases h with ⟨-, h⟩ | ⟨-, h⟩ | ⟨-, h⟩ | ⟨-, h⟩ |
    (⟨-, -, h⟩ | ⟨-, -, h⟩ | ⟨-, -, h⟩ | ⟨-, -, h⟩ | ⟨-, -, h⟩) | ⟨d, -, -, h⟩ | ⟨g2, -, -, h⟩ |
    ⟨g2, hg2, s, hs1, hs2, hl⟩ | ⟨w, -, (⟨-, h⟩ | ⟨s, -, err, -, h⟩ | ⟨s, -, abs, -, -, h⟩)⟩
  all_goals first
  | (have e := msgTriggerLong_inj _ _ _ hl; subst e; exact ⟨hg2, s, hs1, hs2⟩)
  | exact absurd h.symm (msgTriggerMissing_ne_long _ _ _)
  | simp [msgNoID, msgReserved, msgWhitespace, msgInvalidType, msgGroupNoDeps,
      msgGroupTriggers, msgGroupWatch, msgGroupCmd, msgNoCmd, msgDepMissing, msgTriggerLong,
      msgWatchAbsolute, msgWatchResolve, msgWatchOutside, String.ext_iff] at h

/-- A missing-trigger problem in the result of `validateTask` comes from rule 8. -/
theorem mem_validateTask_triggerMissing (P : Platform) (v : validator) (ts : Tasks) (t : Task)
    (g : String) (h : msgTriggerMissing t.Metadata.ID g ∈ validateTask P v ts t) :
    g ∈ t.Metadata.Triggers ∧ ts.get g = none := by
  rw [mem_validateTask_iff] at h
  simp only [mem_typeOut_iff, mem_watchOut_iff] at h
  rcases h with ⟨-, h⟩ | ⟨-, h⟩ | ⟨-, h⟩ | ⟨-, h⟩ |
    (⟨-, -, h⟩ | ⟨-, -, h⟩ | ⟨-, -, h⟩ | ⟨-, -, h⟩ | ⟨-, -, h⟩) | ⟨d, -, -, h⟩ |
    ⟨g2, hg2, hs1, hl⟩ |
    ⟨g2, -, s, -, -, h⟩ | ⟨w, -, (⟨-, h⟩ | ⟨s, -, err, -, h⟩ | ⟨s, -, abs, -, -, h⟩)⟩
  all_goals first
  | (have e := msgTriggerMissing_inj _ _ _ hl; subst e; exact ⟨hg2, hs1⟩)
  | exact absurd h (msgTriggerMissing_ne_long _ _ _)
  | simp [msgNoID, msgReserved, msgWhitespace, msgInvalidType, msgGroupNoDeps,
      msgGroupTriggers, msgGroupWatch, msgGroupCmd, msgNoCmd, msgDepMissing, msgTriggerMissing,
      msgWatchAbsolute, msgWatchResolve, msgWatchOutside, String.ext_iff] at h

/-- C7: for a trigger `id` of `t` that resolves to the task `s` of the
collection, `validateTask` contains the long-trigger problem naming `id` if and
only if `s` has type long; when `s` has type short or group, it contains no
trigger problem naming `id` (neither the long one nor the missing one). -/
theorem validateTask_trigger_long_iff (P : Platform) (v : validator) (ts : Tasks) (t s : Task)
    (id : String) (hid : id ∈ t.Metadata.Triggers) (hs : ts.get id = some s) :
    ("Task '" ++ t.Metadata.ID ++ "' lists trigger '" ++ id ++
        "', which is long. Long tasks aren't expected to end, so using them as triggers is invalid."
        ∈ validateTask P v ts t ↔ s.Metadata.«Type» = "long") ∧
    (s.Metadata.«Type» = "short" ∨ s.Metadata.«Type» = "group" →
      msgTriggerLong t.Metadata.ID id ∉ validateTask P v ts t ∧
      msgTriggerMissing t.Metadata.ID id ∉ validateTask P v ts t) := by
  have hiff : msgTriggerLong t.Metadata.ID id ∈ validateTask P v ts t ↔
      s.Metadata.«Type» = "long" := by
    constructor
    · intro h
      obtain ⟨-, s2, h1, h2⟩ := mem_validateTask_triggerLong P v ts t id h
      rw [hs] at h1
      cases h1
      exact h2
    · intro h
      rw [mem_validateTask_iff]
      exact Or.inr (Or.inr (Or.inr (Or.inr (Or.inr (Or.inr (Or.inr
        (Or.inl ⟨id, hid, s, hs, h, rfl⟩)))))))
  refine ⟨hiff, fun hty => ⟨fun h => ?_, fun h => ?_⟩⟩
  · have := hiff.1 h
    rcases hty with hty | hty <;> simp [hty] at this
  · have := (mem_validateTask_triggerMissing P v ts t id h).2
    rw [hs] at this
    cases this

/-- C7 at the trigger `serve` of the task `deploy`, which resolves to a long task. -/
theorem validateTask_trigger_long_iff_witness :
    "serve" ∈ sampleDeploy.Metadata.Triggers ∧
    sampleTriggerTasks.get "serve" = some sampleServe ∧
    (("Task '" ++ sampleDeploy.Metadata.ID ++ "' lists trigger '" ++ "serve" ++
        "', which is long. Long tasks aren't expected to end, so using them as triggers is invalid."
        ∈ validateTask samplePlatform newValidator sampleTriggerTasks sampleDeploy ↔
        sampleServe.Metadata.«Type» = "long") ∧
      (sampleServe.Metadata.«Type» = "short" ∨ sampleServe.Metadata.«Type» = "group" →
        msgTriggerLong sampleDeploy.Metadata.ID "serve" ∉
          validateTask samplePlatform newValidator sampleTriggerTasks sampleDeploy ∧
        msgTriggerMissing sampleDeploy.Metadata.ID "serve" ∉
          validateTask samplePlatform newValidator sampleTriggerTasks sampleDeploy)) :=
  ⟨by decide, by decide,
    validateTask_trigger_long_iff samplePlatform newValidator sampleTriggerTasks sampleDeploy
      sampleServe "serve" (by decide) (by decide)⟩

/-- C5, as stated, fails: in the collection that stores a task with ID `b` under
the key `a`, the reference `a` is the ID of no task, and `validateTask` reports
neither a missing dependency nor a missing trigger. -/
theorem validateTask_missing_id_counterexample :
    "a" ∈ sampleAliasedTask.Metadata.Dependencies ∧
    "a" ∈ sampleAliasedTask.Metadata.Triggers ∧
    (∀ e ∈ sampleAliased.entries, e.2.Metadata.ID ≠ "a") ∧
    "Task 'b' lists dependency 'a', which is not the ID of a task." ∉
      validateTask samplePlatform newValidator sampleAliased sampleAliasedTask ∧
    "Task 'b' lists trigger 'a', which is not the ID of a task." ∉
      validateTask samplePlatform newValidator sampleAliased sampleAliasedTask := by
  decide

/-- C5 (amended): for every reference `id` in the dependencies (respectively
triggers) of a task, of any type and variant, such that `id` is not a key of the
collection, `validateTask` contains the problem naming the missing ID. -/
theorem validateTask_missing_key (P : Platform) (v : validator) (ts : Tasks) (t : Task)
    (id : String) (hid : ∀ e ∈ ts.entries, e.1 ≠ id) :
    (id ∈ t.Metadata.Dependencies →
      "Task '" ++ t.Metadata.ID ++ "' lists dependency '" ++ id ++
        "', which is not the ID of a task." ∈ validateTask P v ts t) ∧
    (id ∈ t.Metadata.Triggers →
      "Task '" ++ t.Metadata.ID ++ "' lists trigger '" ++ id ++
        "', which is not the ID of a task." ∈ validateTask P v ts t) := by
  have hnone : ts.get id = none := (ts.get_eq_none_iff id).2 hid
  constructor
  · intro h
    rw [mem_validateTask_iff]
    exact Or.inr (Or.inr (Or.inr (Or.inr (Or.inr (Or.inl ⟨id, h, hnone, rfl⟩)))))
  · intro h
    rw [mem_validateTask_iff]
    exact Or.inr (Or.inr (Or.inr (Or.inr (Or.inr (Or.inr (Or.inl ⟨id, h, hnone, rfl⟩))))))

/-- C5 (amended) at the two-task example: `z` is no key, and the task `y` lists
it as a trigger. -/
theorem validateTask_missing_key_witness :
    (∀ e ∈ sampleXY.entries, e.1 ≠ "z") ∧
    "Task 'y' lists trigger 'z', which is not the ID of a task." ∈
      validateTask samplePlatform newValidator sampleXY sampleY :=
  ⟨by decide,
    (validateTask_missing_key samplePlatform newValidator sampleXY sampleY "z"
      (by decide)).2 (by decide)⟩

/-- Two entries of a collection with the same key are the same entry. -/
theorem entry_eq_of_key_eq (ts : Tasks) (e1 e2 : String × Task)
    (h1 : e1 ∈ ts.entries) (h2 : e2 ∈ ts.entries) (hk : e1.1 = e2.1) : e1 = e2 := by
  have g1 : ts.get e1.1 = some e1.2 := (ts.get_eq_some_iff e1.1 e1.2).2 h1
  have g2 : ts.get e1.1 = some e2.2 := (ts.get_eq_some_iff e1.1 e2.2).2 (by rw [hk]; exact h2)
  rw [g1] at g2
  exact Prod.ext hk (Option.some.inj g2)

/-- C6: when `validate` succeeds, the tasks' own IDs are pairwise distinct and
every entry of every task's dependencies and triggers is the own ID of exactly
one task of the collection. -/
theorem validate_ok_references_resolve (P : Platform) (v : validator) (ts : Tasks)
    (keyOrder taskOrder : List (String × Task))
    (hk : keyOrder.Perm ts.entries) (ht : taskOrder.Perm ts.entries)
    (hok : validate P v ts keyOrder taskOrder = .ok ()) :
    (ts.entries.map (fun e => e.2.Metadata.ID)).Nodup ∧
    ∀ e ∈ ts.entries, ∀ id,
      id ∈ e.2.Metadata.Dependencies ∨ id ∈ e.2.Metadata.Triggers →
      ∃! e2, e2 ∈ ts.entries ∧ e2.2.Metadata.ID = id := by
  obtain ⟨hK, hT⟩ := (validate_ok_iff_forall P v ts _ _ hk ht).1 hok
  constructor
  · have : ts.entries.map (fun e => e.2.Metadata.ID) = ts.entries.map Prod.fst :=
      List.map_congr_left (fun e he => (hK e he).symm)
    rw [this]
    exact ts.nodupKeys
  · intro e he id hid
    obtain ⟨-, -, -, -, -, -, -, hdep, htrig, -⟩ :=
      (validateTask_eq_nil_iff P v ts e.2).1 (hT e he)
    have hex : ∃ e2 ∈ ts.entries, e2.2.Metadata.ID = id := by
      rcases hid with hid | hid
      · exact (get_isSome_iff_id ts hK id).1 (hdep id hid)
      · obtain ⟨s, hs, -⟩ := htrig id hid
        exact (get_isSome_iff_id ts hK id).1 ⟨s, hs⟩
    obtain ⟨e2, he2, hid2⟩ := hex
    refine ⟨e2, ⟨he2, hid2⟩, ?_⟩
    rintro e3 ⟨he3, hid3⟩
    apply entry_eq_of_key_eq ts e3 e2 he3 he2
    rw [hK e3 he3, hK e2 he2, hid3, hid2]

/-- C6 at the well-formed sample collection. -/
theorem validate_ok_references_resolve_witness :
    sampleTasks.entries.Perm sampleTasks.entries ∧
    validate samplePlatform ⟨"/work"⟩ sampleTasks sampleTasks.entries sampleTasks.entries =
      .ok () ∧
    ((sampleTasks.entries.map (fun e => e.2.Metadata.ID)).Nodup ∧
      ∀ e ∈ sampleTasks.entries, ∀ id,
        id ∈ e.2.Metadata.Dependencies ∨ id ∈ e.2.Metadata.Triggers →
        ∃! e2, e2 ∈ sampleTasks.entries ∧ e2.2.Metadata.ID = id) :=
  ⟨List.Perm.refl _, by decide,
    validate_ok_references_resolve samplePlatform ⟨"/work"⟩ sampleTasks _ _
      (List.Perm.refl _) (List.Perm.refl _) (by decide)⟩

/-- A problem of the list appears in the body of the report, after a dash. -/
theorem reportBody_contains (qs : List String) (q : String) (h : q ∈ qs) :
    ∃ a b, reportBody qs = a ++ ("- " ++ q) ++ b := by
  induction qs with
  | nil => simp at h
  | cons x xs ih =>
    rcases List.mem_cons.1 h with h | h
    · subst h
      exact ⟨"\n", reportBody xs, by simp only [reportBody, String.append_assoc]⟩
    · obtain ⟨a, b, hab⟩ := ih h
      exact ⟨"\n" ++ "- " ++ x ++ a, b, by simp only [reportBody, hab, String.append_assoc]⟩

/-- C8: a group task with empty dependencies always has the no-dependencies
problem; with triggers and watch paths as well, the has-triggers and has-watch
problems are reported too and the result has at least 3 problems.  The
collection with the single group `a` without dependencies fails, and its report
contains `- Task 'a' is a group, but has no dependencies.` -/
theorem validateTask_group_no_deps (P : Platform) (v : validator) (ts : Tasks) (t : Task)
    (hg : t.Metadata.«Type» = "group") (hd : t.Metadata.Dependencies = []) :
    "Task '" ++ t.Metadata.ID ++
        "' is a group, but has no dependencies. Groups must include at least one dependency."
        ∈ validateTask P v ts t ∧
    (t.Metadata.Triggers ≠ [] → t.Metadata.Watch ≠ [] →
      "Task '" ++ t.Metadata.ID ++ "' is a group, but has triggers. Groups may not have triggers."
        ∈ validateTask P v ts t ∧
      "Task '" ++ t.Metadata.ID ++ "' is a group, but has watch. Groups may not have watch."
        ∈ validateTask P v ts t ∧
      3 ≤ (validateTask P v ts t).length) ∧
    (t.Metadata.ID = "a" →
      ∃ msg a b, validate P v (Tasks.single "a" t) [("a", t)] [("a", t)] = .error msg ∧
        msg = a ++ "- Task 'a' is a group, but has no dependencies." ++ b) := by
  have h1 : msgGroupNoDeps t.Metadata.ID ∈ typeOut t t.Metadata :=
    (mem_typeOut_iff t t.Metadata _).2 (Or.inl ⟨hg, hd, rfl⟩)
  refine ⟨mem_validateTask_of_typeOut P v ts t _ h1, fun htr hw => ⟨?_, ?_, ?_⟩, fun hid => ?_⟩
  · exact mem_validateTask_of_typeOut P v ts t _
      ((mem_typeOut_iff t t.Metadata _).2 (Or.inr (Or.inl ⟨hg, htr, rfl⟩)))
  · exact mem_validateTask_of_typeOut P v ts t _
      ((mem_typeOut_iff t t.Metadata _).2 (Or.inr (Or.inr (Or.inl ⟨hg, hw, rfl⟩))))
  · have hlen : 3 ≤ (typeOut t t.Metadata).length := by
      unfold typeOut
      have e2 : 0 < t.Metadata.Triggers.length := List.length_pos.2 htr
      have e3 : 0 < t.Metadata.Watch.length := List.length_pos.2 hw
      simp only [hg, if_true, hd, List.length_nil, gt_iff_lt, e2, e3, List.length_append,
        List.length_singleton]
      omega
    rw [validateTask_eq]
    simp only [List.length_append]
    omega
  · have hmem : msgGroupNoDeps t.Metadata.ID ∈
        detectedProblems P v (Tasks.single "a" t) [("a", t)] [("a", t)] := by
      unfold detectedProblems
      refine List.mem_append_right _ (List.mem_flatMap.2 ⟨("a", t), by simp, ?_⟩)
      exact mem_validateTask_of_typeOut P v _ t _ h1
    obtain ⟨a, b, hab⟩ := reportBody_contains _ _ hmem
    refine ⟨reportText (detectedProblems P v (Tasks.single "a" t) [("a", t)] [("a", t)]),
      "invalid taskfile" ++ a,
      " Groups must include at least one dependency." ++ b, ?_, ?_⟩
    · rw [validate_eq_report, if_neg (List.ne_nil_of_mem hmem)]
    · rw [reportText, hab, hid]
      simp only [msgGroupNoDeps, String.append_assoc]
      rfl

/-- C8 at a script group without dependencies that has a trigger, a watch path
and a command, and the report of the collection with the single group `a`. -/
theorem validateTask_group_no_deps_witness :
    sampleWrongGroup.Metadata.«Type» = "group" ∧
    sampleWrongGroup.Metadata.Dependencies = [] ∧
    sampleWrongGroup.Metadata.Triggers ≠ [] ∧ sampleWrongGroup.Metadata.Watch ≠ [] ∧
    3 ≤ (validateTask samplePlatform ⟨"/work"⟩ sampleTasks sampleWrongGroup).length ∧
    validate samplePlatform newValidator (Tasks.single "a" sampleGroupA)
        [("a", sampleGroupA)] [("a", sampleGroupA)] =
      .error ("invalid taskfile\n- Task 'a' is a group, but has no dependencies. " ++
        "Groups must include at least one dependency.") :=
  ⟨rfl, rfl, by decide, by decide,
    ((validateTask_group_no_deps samplePlatform ⟨"/work"⟩ sampleTasks sampleWrongGroup
      rfl rfl).2.1 (by decide) (by decide)).2.2, by decide⟩

/-- A reserved-ID problem in the result of `validateTask` comes from rule 2. -/
theorem mem_validateTask_reserved (P : Platform) (v : validator) (ts : Tasks) (t : Task)
    (x : String) (h : msgReserved x ∈ validateTask P v ts t) :
    t.Metadata.ID = "interleaved" ∨ t.Metadata.ID = "run" := by
  rw [mem_validateTask_iff] at h
  simp only [mem_typeOut_iff, mem_watchOut_iff] at h
  rcases h with ⟨-, h⟩ | ⟨hc, -⟩ | ⟨-, h⟩ | ⟨-, h⟩ |
    (⟨-, -, h⟩ | ⟨-, -, h⟩ | ⟨-, -, h⟩ | ⟨-, -, h⟩ | ⟨-, -, h⟩) | ⟨d, -, -, h⟩ | ⟨g, -, -, h⟩ |
    ⟨g, -, s, -, -, h⟩ | ⟨w, -, (⟨-, h⟩ | ⟨s, -, err, -, h⟩ | ⟨s, -, abs, -, -, h⟩)⟩
  all_goals first
  | exact hc
  | simp [msgNoID, msgReserved, msgWhitespace, msgInvalidType, msgGroupNoDeps,
      msgGroupTriggers, msgGroupWatch, msgGroupCmd, msgNoCmd, msgDepMissing, msgTriggerMissing,
      msgTriggerLong, msgWatchAbsolute, msgWatchResolve, msgWatchOutside, String.ext_iff] at h

/-- C11: for a task whose ID is `run` or `interleaved`, `validateTask` contains
the reserved-ID problem of that ID, whatever the other fields of the task and
the collection; for any other ID it contains no reserved-ID problem at all. -/
theorem validateTask_reserved_iff (P : Platform) (v : validator) (ts : Tasks) (t : Task) :
    ("'" ++ t.Metadata.ID ++ "' is reserved and cannot be used as a task ID."
        ∈ validateTask P v ts t ↔
      (t.Metadata.ID = "run" ∨ t.Metadata.ID = "interleaved")) ∧
    (¬ (t.Metadata.ID = "run" ∨ t.Metadata.ID = "interleaved") →
      ∀ x, msgReserved x ∉ validateTask P v ts t) := by
  refine ⟨⟨fun h => ?_, fun h => ?_⟩, fun hn x h => hn ?_⟩
  · exact (mem_validateTask_reserved P v ts t _ h).symm
  · rw [mem_validateTask_iff]
    exact Or.inr (Or.inl ⟨h.symm, rfl⟩)
  · exact (mem_validateTask_reserved P v ts t x h).symm

theorem count_whitespaceOut (l : List Char) :
    (l.flatMap whitespaceOut).count msgWhitespace = l.countP IsSpace := by
  induction l with
  | nil => rfl
  | cons c cs ih =>
    rw [List.flatMap_cons, List.count_append, ih, List.countP_cons]
    unfold whitespaceOut
    cases IsSpace c <;> simp [Nat.add_comm]

/-- No rule other than rule 3 raises the whitespace problem. -/
theorem msgWhitespace_not_mem_others (P : Platform) (v : validator) (ts : Tasks) (t : Task) :
    msgWhitespace ∉ (if t.Metadata.ID = "" then [msgNoID] else []) ∧
    msgWhitespace ∉ (if t.Metadata.ID = "interleaved" ∨ t.Metadata.ID = "run" then
        [msgReserved t.Metadata.ID] else []) ∧
    msgWhitespace ∉ (if t.Metadata.«Type» ≠ "long" ∧ t.Metadata.«Type» ≠ "short" ∧
          t.Metadata.«Type» ≠ "group" then
        [msgInvalidType t.Metadata.ID t.Metadata.«Type»] else []) ∧
    msgWhitespace ∉ typeOut t t.Metadata ∧
    msgWhitespace ∉ t.Metadata.Dependencies.flatMap (dependencyOut ts t.Metadata) ∧
    msgWhitespace ∉ t.Metadata.Triggers.flatMap (triggerOut ts t.Metadata) ∧
    msgWhitespace ∉ t.Metadata.Watch.flatMap (watchOut P v t t.Metadata) := by
  simp only [mem_ite_singleton, List.mem_flatMap, mem_typeOut_iff, mem_dependencyOut_iff,
    mem_triggerOut_iff, mem_watchOut_iff]
  refine ⟨?_, ?_, ?_, ?_, ?_, ?_, ?_⟩
  · rintro ⟨-, h⟩
    simp [msgWhitespace, msgNoID, String.ext_iff] at h
  · rintro ⟨-, h⟩
    simp [msgWhitespace, msgReserved, String.ext_iff] at h
  · rintro ⟨-, h⟩
    simp [msgWhitespace, msgInvalidType, String.ext_iff] at h
  · rintro (⟨-, -, h⟩ | ⟨-, -, h⟩ | ⟨-, -, h⟩ | ⟨-, -, h⟩ | ⟨-, -, h⟩) <;>
    simp [msgWhitespace, msgGroupNoDeps, msgGroupTriggers, msgGroupWatch, msgGroupCmd,
      msgNoCmd, String.ext_iff] at h
  · rintro ⟨d, -, -, h⟩
    simp [msgWhitespace, msgDepMissing, String.ext_iff] at h
  · rintro ⟨g, -, (⟨-, h⟩ | ⟨s, -, -, h⟩)⟩ <;>
    simp [msgWhitespace, msgTriggerMissing, msgTriggerLong, String.ext_iff] at h
  · rintro ⟨w, -, (⟨-, h⟩ | ⟨s, -, err, -, h⟩ | ⟨s, -, abs, -, -, h⟩)⟩ <;>
    simp [msgWhitespace, msgWatchAbsolute, msgWatchResolve, msgWatchOutside,
      String.ext_iff] at h

/-- C12: the number of whitespace problems in the result of `validateTask` is
the number of whitespace characters of the task's ID (one problem per offending
character, none when the ID has none); a task with ID `b b` yields exactly one. -/
theorem validateTask_whitespace_count (P : Platform) (v : validator) (ts : Tasks) (t : Task) :
    (validateTask P v ts t).count "Task IDs cannot contain whitespace characters." =
      t.Metadata.ID.data.countP IsSpace ∧
    (t.Metadata.ID = "b b" →
      (validateTask P v ts t).count "Task IDs cannot contain whitespace characters." = 1) := by
  have hcount : (validateTask P v ts t).count msgWhitespace =
      t.Metadata.ID.data.countP IsSpace := by
    obtain ⟨h1, h2, h3, h4, h5, h6, h7⟩ := msgWhitespace_not_mem_others P v ts t
    rw [validateTask_eq]
    simp only [List.count_append, List.count_eq_zero.2 h1, List.count_eq_zero.2 h2,
      List.count_eq_zero.2 h3, List.count_eq_zero.2 h4, List.count_eq_zero.2 h5,
      List.count_eq_zero.2 h6, List.count_eq_zero.2 h7, count_whitespaceOut]
    omega
  refine ⟨hcount, fun hid => ?_⟩
  have : (validateTask P v ts t).count msgWhitespace = 1 := by
    rw [hcount, hid]; decide
  exact this

/-- C11 at a task with the reserved ID `run`. -/
theorem validateTask_reserved_iff_witness :
    "'run' is reserved and cannot be used as a task ID." ∈
      validateTask samplePlatform newValidator sampleTasks sampleRun :=
  (validateTask_reserved_iff samplePlatform newValidator sampleTasks sampleRun).1.2
    (Or.inl rfl)

/-- C12 at the task with ID `b b`: exactly one whitespace problem. -/
theorem validateTask_whitespace_count_witness :
    sampleB.Metadata.ID = "b b" ∧
    (validateTask samplePlatform newValidator (Tasks.single "b" sampleB) sampleB).count
      "Task IDs cannot contain whitespace characters." = 1 :=
  ⟨rfl, (validateTask_whitespace_count samplePlatform newValidator (Tasks.single "b" sampleB)
    sampleB).2 rfl⟩

/-- The detected problems under two pairs of iteration orders are permutations
of each other. -/
theorem detectedProblems_perm (P : Platform) (v : validator) (ts : Tasks)
    (k1 t1 k2 t2 : List (String × Task)) (hk : k1.Perm k2) (ht : t1.Perm t2) :
    (detectedProblems P v ts k1 t1).Perm (detectedProblems P v ts k2 t2) :=
  List.Perm.append ((hk.filter _).map _) (ht.flatMap_right _)

/-- C13: a script task with a non-empty, non-reserved ID without whitespace,
type short or long, a non-empty command and no dependencies, triggers or watch
paths has no problem, whatever the collection contains.  In the two-task
example, `x` has no problem and the report is the unresolved trigger `z` of `y`. -/
theorem validateTask_plain_script (P : Platform) (v : validator) (ts : Tasks) (t : Task)
    (script dir : String) (hs : t.asScript = some (script, dir))
    (h1 : t.Metadata.ID ≠ "") (h2 : t.Metadata.ID ≠ "interleaved") (h3 : t.Metadata.ID ≠ "run")
    (h4 : ∀ c ∈ t.Metadata.ID.data, IsSpace c = false)
    (h5 : t.Metadata.«Type» = "short" ∨ t.Metadata.«Type» = "long") (h6 : script ≠ "")
    (h7 : t.Metadata.Dependencies = []) (h8 : t.Metadata.Triggers = [])
    (h9 : t.Metadata.Watch = []) :
    validateTask P v ts t = [] ∧
    validateTask P v sampleXY sampleX = [] ∧
    ∀ keyOrder taskOrder : List (String × Task),
      keyOrder.Perm sampleXY.entries → taskOrder.Perm sampleXY.entries →
      validate P v sampleXY keyOrder taskOrder =
        .error "invalid taskfile\n- Task 'y' lists trigger 'z', which is not the ID of a task." := by
  refine ⟨?_, rfl, fun keyOrder taskOrder hk ht => ?_⟩
  · rw [validateTask_eq_nil_iff]
    have hng : t.Metadata.«Type» ≠ "group" := by
      rcases h5 with h5 | h5 <;> simp [h5]
    refine ⟨h1, h2, h3, h4, ?_, fun hg => absurd hg hng, fun _ s hmem => ?_, ?_, ?_, ?_⟩
    · rcases h5 with h5 | h5
      · exact Or.inr (Or.inl h5)
      · exact Or.inl h5
    · rw [hs] at hmem
      cases hmem
      exact h6
    · simp [h7]
    · simp [h8]
    · simp [h9]
  · have hp := detectedProblems_perm P v sampleXY keyOrder taskOrder _ _ hk ht
    have he : detectedProblems P v sampleXY sampleXY.entries sampleXY.entries =
        ["Task 'y' lists trigger 'z', which is not the ID of a task."] := rfl
    rw [he] at hp
    rw [validate_eq_report, List.perm_singleton.1 hp]
    rfl

/-- C13 at the task `x` of the two-task example. -/
theorem validateTask_plain_script_witness :
    sampleX.asScript = some ("...", "/work") ∧
    sampleX.Metadata.ID ≠ "" ∧ sampleX.Metadata.ID ≠ "interleaved" ∧
    sampleX.Metadata.ID ≠ "run" ∧ (∀ c ∈ sampleX.Metadata.ID.data, IsSpace c = false) ∧
    (sampleX.Metadata.«Type» = "short" ∨ sampleX.Metadata.«Type» = "long") ∧
    "..." ≠ "" ∧ sampleX.Metadata.Dependencies = [] ∧ sampleX.Metadata.Triggers = [] ∧
    sampleX.Metadata.Watch = [] ∧
    validateTask samplePlatform ⟨"/work"⟩ sampleXY sampleX = [] ∧
    validate samplePlatform ⟨"/work"⟩ sampleXY [("y", sampleY), ("x", sampleX)]
        sampleXY.entries =
      .error "invalid taskfile\n- Task 'y' lists trigger 'z', which is not the ID of a task." :=
  have h := validateTask_plain_script samplePlatform ⟨"/work"⟩ sampleXY sampleX "..." "/work"
    rfl (by decide) (by decide) (by decide) (by decide) (Or.inl rfl) (by decide) rfl rfl rfl
  ⟨rfl, by decide, by decide, by decide, by decide, Or.inl rfl, by decide, rfl, rfl, rfl,
    h.1, h.2.2 _ _ (List.Perm.swap _ _ _) (List.Perm.refl _)⟩

theorem msgWatchAbsolute_inj (id p q : String)
    (e : msgWatchAbsolute id p = msgWatchAbsolute id q) : p = q := by
  simp [msgWatchAbsolute, String.ext_iff] at e
  exact String.ext e

theorem msgWatchOutside_inj (id p q : String)
    (e : msgWatchOutside id p = msgWatchOutside id q) : p = q := by
  simp [msgWatchOutside, String.ext_iff] at e
  exact String.ext e

/-- The absolute-path and outside-directory texts never coincide. -/
theorem msgWatchAbsolute_ne_outside (id p q : String) :
    msgWatchAbsolute id p ≠ msgWatchOutside id q := by
  simp only [msgWatchAbsolute, msgWatchOutside, ne_eq, String.ext_iff, String.data_append,
    List.append_assoc, List.append_cancel_left_eq]
  exact append_ne_of_suffix_ne _ _ _ _ 2 (by decide) (by decide) (by decide)

/-- An absolute-path problem in the result of `validateTask` comes from rule 10. -/
theorem mem_validateTask_watchAbsolute (P : Platform) (v : validator) (ts : Tasks) (t : Task)
    (p : String) (h : msgWatchAbsolute t.Metadata.ID p ∈ validateTask P v ts t) :
    p ∈ t.Metadata.Watch ∧ HasPrefix p (String.singleton P.PathSeparator) = true := by
  rw [mem_validateTask_iff] at h
  simp only [mem_typeOut_iff, mem_watchOut_iff] at h
  rcases h with ⟨-, h⟩ | ⟨-, h⟩ | ⟨-, h⟩ | ⟨-, h⟩ |
    (⟨-, -, h⟩ | ⟨-, -, h⟩ | ⟨-, -, h⟩ | ⟨-, -, h⟩ | ⟨-, -, h⟩) | ⟨d, -, -, h⟩ | ⟨g, -, -, h⟩ |
    ⟨g, -, s, -, -, h⟩ | ⟨w, hw, (⟨hpre, hl⟩ | ⟨s, -, err, -, h⟩ | ⟨s, -, abs, -, -, h⟩)⟩
  all_goals first
  | (have e := msgWatchAbsolute_inj _ _ _ hl; subst e; exact ⟨hw, hpre⟩)
  | exact absurd h (msgWatchAbsolute_ne_outside _ _ _)
  | simp [msgNoID, msgReserved, msgWhitespace, msgInvalidType, msgGroupNoDeps,
      msgGroupTriggers, msgGroupWatch, msgGroupCmd, msgNoCmd, msgDepMissing, msgTriggerMissing,
      msgTriggerLong, msgWatchAbsolute, msgWatchResolve, String.ext_iff] at h

/-- An outside-directory problem in the result of `validateTask` comes from the
containment test of rule 11. -/
theorem mem_validateTask_watchOutside (P : Platform) (v : validator) (ts : Tasks) (t : Task)
    (p : String) (h : msgWatchOutside t.Metadata.ID p ∈ validateTask P v ts t) :
    p ∈ t.Metadata.Watch ∧ ∃ s ∈ t.asScript, ∃ abs,
      P.Abs (P.Join s.2 p) = .ok abs ∧ HasPrefix abs v.cwd = false := by
  rw [mem_validateTask_iff] at h
  simp only [mem_typeOut_iff, mem_watchOut_iff] at h
  rcases h with ⟨-, h⟩ | ⟨-, h⟩ | ⟨-, h⟩ | ⟨-, h⟩ |
    (⟨-, -, h⟩ | ⟨-, -, h⟩ | ⟨-, -, h⟩ | ⟨-, -, h⟩ | ⟨-, -, h⟩) | ⟨d, -, -, h⟩ | ⟨g, -, -, h⟩ |
    ⟨g, -, s, -, -, h⟩ | ⟨w, hw, (⟨-, h⟩ | ⟨s, -, err, -, h⟩ | ⟨s, hs, abs, habs, hpre, hl⟩)⟩
  all_goals first
  | (have e := msgWatchOutside_inj _ _ _ hl; subst e; exact ⟨hw, s, hs, abs, habs, hpre⟩)
  | exact absurd h.symm (msgWatchAbsolute_ne_outside _ _ _)
  | simp [msgNoID, msgReserved, msgWhitespace, msgInvalidType, msgGroupNoDeps,
      msgGroupTriggers, msgGroupWatch, msgGroupCmd, msgNoCmd, msgDepMissing, msgTriggerMissing,
      msgTriggerLong, msgWatchOutside, msgWatchResolve, String.ext_iff] at h

/-- A problem raised for a watch path is in the result of `validateTask`. -/
theorem mem_validateTask_of_watchOut (P : Platform) (v : validator) (ts : Tasks) (t : Task)
    (m w : String) (hw : w ∈ t.Metadata.Watch) (h : m ∈ watchOut P v t t.Metadata w) :
    m ∈ validateTask P v ts t :=
  (mem_validateTask_iff P v ts t m).2
    (Or.inr (Or.inr (Or.inr (Or.inr (Or.inr (Or.inr (Or.inr (Or.inr ⟨w, hw, h⟩))))))))

/-- C14: for every watch path `p` of a task of any type and variant,
`validateTask` reports that `p` is absolute if and only if `p` starts with the
platform path separator. -/
theorem validateTask_watch_absolute_iff (P : Platform) (v : validator) (ts : Tasks) (t : Task)
    (p : String) (hp : p ∈ t.Metadata.Watch) :
    "Task '" ++ t.Metadata.ID ++ "' wants to watch path '" ++ p ++ "', which is absolute."
        ∈ validateTask P v ts t ↔
      HasPrefix p (String.singleton P.PathSeparator) = true := by
  constructor
  · intro h
    exact (mem_validateTask_watchAbsolute P v ts t p h).2
  · intro h
    exact mem_validateTask_of_watchOut P v ts t _ p hp
      ((mem_watchOut_iff P v t t.Metadata _ p).2 (Or.inl ⟨h, rfl⟩))

/-- C14 at the watch path `/etc` of the sample watcher. -/
theorem validateTask_watch_absolute_iff_witness :
    "/etc" ∈ sampleWatcher.Metadata.Watch ∧
    ("Task '" ++ sampleWatcher.Metadata.ID ++ "' wants to watch path '" ++ "/etc" ++
        "', which is absolute."
        ∈ validateTask cleaningPlatform ⟨"/work/foo"⟩ sampleTasks sampleWatcher ↔
      HasPrefix "/etc" (String.singleton cleaningPlatform.PathSeparator) = true) :=
  ⟨by decide,
    validateTask_watch_absolute_iff cleaningPlatform ⟨"/work/foo"⟩ sampleTasks sampleWatcher
      "/etc" (by decide)⟩

/-- A resolution-error problem in the result of `validateTask` comes from rule 11
on a script task. -/
theorem mem_validateTask_watchResolve (P : Platform) (v : validator) (ts : Tasks) (t : Task)
    (p err : String) (h : msgWatchResolve t.Metadata.ID p err ∈ validateTask P v ts t) :
    ∃ s, t.asScript = some s := by
  rw [mem_validateTask_iff] at h
  simp only [mem_typeOut_iff, mem_watchOut_iff] at h
  rcases h with ⟨-, h⟩ | ⟨-, h⟩ | ⟨-, h⟩ | ⟨-, h⟩ |
    (⟨-, -, h⟩ | ⟨-, -, h⟩ | ⟨-, -, h⟩ | ⟨-, -, h⟩ | ⟨-, -, h⟩) | ⟨d, -, -, h⟩ | ⟨g, -, -, h⟩ |
    ⟨g, -, s, -, -, h⟩ | ⟨w, hw, (⟨-, h⟩ | ⟨s, hs, err2, -, -⟩ | ⟨s, -, abs, -, -, h⟩)⟩
  all_goals first
  | exact ⟨s, hs⟩
  | simp [msgNoID, msgReserved, msgWhitespace, msgInvalidType, msgGroupNoDeps,
      msgGroupTriggers, msgGroupWatch, msgGroupCmd, msgNoCmd, msgDepMissing, msgTriggerMissing,
      msgTriggerLong, msgWatchOutside, msgWatchAbsolute, msgWatchResolve, String.ext_iff] at h

/-- C16: for a script task and a watch path `p` whose joined path resolves to
`abs`, `validateTask` reports `p` as outside of the working directory if and
only if the anchor is not a string prefix of `abs`; when the resolution fails it
reports the resolution error and no outside problem for `p`; with anchor
`/work/foo` and `abs` equal to `/work/foo2` no outside problem is reported. -/
theorem validateTask_watch_outside_iff (P : Platform) (v : validator) (ts : Tasks) (t : Task)
    (script dir p : String) (hs : t.asScript = some (script, dir))
    (hp : p ∈ t.Metadata.Watch) :
    (∀ abs, P.Abs (P.Join dir p) = .ok abs →
      ("Task '" ++ t.Metadata.ID ++ "' wants to watch path '" ++ p ++
          "', which is outside of the working directory." ∈ validateTask P v ts t ↔
        HasPrefix abs v.cwd = false)) ∧
    (∀ err, P.Abs (P.Join dir p) = .error err →
      "Task '" ++ t.Metadata.ID ++ "' had an error resolving path '" ++ p ++ "': " ++ err ++ "."
        ∈ validateTask P v ts t ∧
      msgWatchOutside t.Metadata.ID p ∉ validateTask P v ts t) ∧
    (v.cwd = "/work/foo" → P.Abs (P.Join dir p) = .ok "/work/foo2" →
      msgWatchOutside t.Metadata.ID p ∉ validateTask P v ts t) := by
  have hiff : ∀ abs, P.Abs (P.Join dir p) = .ok abs →
      (msgWatchOutside t.Metadata.ID p ∈ validateTask P v ts t ↔
        HasPrefix abs v.cwd = false) := by
    intro abs habs
    constructor
    · intro h
      obtain ⟨-, s, hs2, abs2, h1, h2⟩ := mem_validateTask_watchOutside P v ts t p h
      rw [hs] at hs2
      cases hs2
      rw [habs] at h1
      cases h1
      exact h2
    · intro h
      exact mem_validateTask_of_watchOut P v ts t _ p hp
        ((mem_watchOut_iff P v t t.Metadata _ p).2
          (Or.inr (Or.inr ⟨(script, dir), hs, abs, habs, h, rfl⟩)))
  refine ⟨hiff, fun err herr => ⟨?_, fun h => ?_⟩, fun hcwd habs h => ?_⟩
  · exact mem_validateTask_of_watchOut P v ts t _ p hp
      ((mem_watchOut_iff P v t t.Metadata _ p).2
        (Or.inr (Or.inl ⟨(script, dir), hs, err, herr, rfl⟩)))
  · obtain ⟨-, s, hs2, abs2, h1, -⟩ := mem_validateTask_watchOutside P v ts t p h
    rw [hs] at hs2
    cases hs2
    rw [herr] at h1
    cases h1
  · have := (hiff _ habs).1 h
    rw [hcwd] at this
    exact absurd this (by decide)

/-- C16 at the sample watcher in `/work/foo`, anchored at `/work/foo`: the path
`../foo2` resolves to `/work/foo2` and is not reported as outside. -/
theorem validateTask_watch_outside_iff_witness :
    sampleWatcher.asScript = some ("make", "/work/foo") ∧
    "../foo2" ∈ sampleWatcher.Metadata.Watch ∧
    cleaningPlatform.Abs (cleaningPlatform.Join "/work/foo" "../foo2") = .ok "/work/foo2" ∧
    msgWatchOutside sampleWatcher.Metadata.ID "../foo2" ∉
      validateTask cleaningPlatform ⟨"/work/foo"⟩ sampleTasks sampleWatcher :=
  ⟨rfl, by decide, by decide,
    (validateTask_watch_outside_iff cleaningPlatform ⟨"/work/foo"⟩ sampleTasks sampleWatcher
      "make" "/work/foo" "../foo2" rfl (by decide)).2.2 rfl (by decide)⟩

/-- The empty string is a prefix of every string. -/
theorem HasPrefix_empty (s : String) : HasPrefix s "" = true := by
  simp [HasPrefix]

/-- C19: for the validator built by `newValidator` (empty anchor),
`validateTask` never reports an outside-of-the-working-directory problem, for
every collection, task and watch path: the empty anchor is a string prefix of
every resolved path. -/
theorem validateTask_newValidator_no_outside (P : Platform) (ts : Tasks) (t : Task)
    (p : String) :
    "Task '" ++ t.Metadata.ID ++ "' wants to watch path '" ++ p ++
        "', which is outside of the working directory." ∉ validateTask P newValidator ts t ∧
    ∀ abs : String, HasPrefix abs newValidator.cwd = true := by
  refine ⟨fun h => ?_, fun abs => HasPrefix_empty abs⟩
  obtain ⟨-, s, -, abs, -, h2⟩ := mem_validateTask_watchOutside P newValidator ts t p h
  rw [show newValidator.cwd = "" from rfl, HasPrefix_empty] at h2
  cases h2

/-- A group-command problem in the result of `validateTask` comes from rule 5d. -/
theorem mem_validateTask_groupCmd (P : Platform) (v : validator) (ts : Tasks) (t : Task)
    (h : msgGroupCmd t.Metadata.ID ∈ validateTask P v ts t) : ∃ s, t.asScript = some s := by
  rw [mem_validateTask_iff] at h
  simp only [mem_typeOut_iff, mem_watchOut_iff] at h
  rcases h with ⟨-, h⟩ | ⟨-, h⟩ | ⟨-, h⟩ | ⟨-, h⟩ |
    (⟨-, -, h⟩ | ⟨-, -, h⟩ | ⟨-, -, h⟩ | ⟨-, ⟨s, hs, -⟩, -⟩ | ⟨-, -, h⟩) | ⟨d, -, -, h⟩ |
    ⟨g, -, -, h⟩ |
    ⟨g, -, s, -, -, h⟩ | ⟨w, hw, (⟨-, h⟩ | ⟨s, -, err2, -, h⟩ | ⟨s, -, abs, -, -, h⟩)⟩
  all_goals first
  | exact ⟨s, hs⟩
  | simp [msgNoID, msgReserved, msgWhitespace, msgInvalidType, msgGroupNoDeps,
      msgGroupTriggers, msgGroupWatch, msgGroupCmd, msgNoCmd, msgDepMissing, msgTriggerMissing,
      msgTriggerLong, msgWatchOutside, msgWatchAbsolute, msgWatchResolve, String.ext_iff] at h

/-- A missing-command problem in the result of `validateTask` comes from rule 6. -/
theorem mem_validateTask_noCmd (P : Platform) (v : validator) (ts : Tasks) (t : Task)
    (h : msgNoCmd t.Metadata.ID ∈ validateTask P v ts t) : ∃ s, t.asScript = some s := by
  rw [mem_validateTask_iff] at h
  simp only [mem_typeOut_iff, mem_watchOut_iff] at h
  rcases h with ⟨-, h⟩ | ⟨-, h⟩ | ⟨-, h⟩ | ⟨-, h⟩ |
    (⟨-, -, h⟩ | ⟨-, -, h⟩ | ⟨-, -, h⟩ | ⟨-, -, h⟩ | ⟨-, ⟨s, hs, -⟩, -⟩) | ⟨d, -, -, h⟩ |
    ⟨g, -, -, h⟩ |
    ⟨g, -, s, -, -, h⟩ | ⟨w, hw, (⟨-, h⟩ | ⟨s, -, err2, -, h⟩ | ⟨s, -, abs, -, -, h⟩)⟩
  all_goals first
  | exact ⟨s, hs⟩
  | simp [msgNoID, msgReserved, msgWhitespace, msgInvalidType, msgGroupNoDeps,
      msgGroupTriggers, msgGroupWatch, msgGroupCmd, msgNoCmd, msgDepMissing, msgTriggerMissing,
      msgTriggerLong, msgWatchOutside, msgWatchAbsolute, msgWatchResolve, String.ext_iff] at h

/-- For a task that is no script task the contribution of a watch path does not
depend on the anchor. -/
theorem watchOut_anchor_irrelevant (P : Platform) (v1 v2 : validator) (t : Task)
    (hn : t.asScript = none) (w : String) :
    watchOut P v1 t t.Metadata w = watchOut P v2 t t.Metadata w := by
  unfold watchOut
  rw [hn]

/-- C20: for a task that is not a script task, `validateTask` contains no
command problem (neither the group-with-a-cmd nor the no-cmd one) and no
watch-path resolution or outside-of-the-working-directory problem, and its
result is the same for every validator anchor. -/
theorem validateTask_nonScript (P : Platform) (v : validator) (ts : Tasks) (t : Task)
    (hn : t.asScript = none) :
    msgGroupCmd t.Metadata.ID ∉ validateTask P v ts t ∧
    msgNoCmd t.Metadata.ID ∉ validateTask P v ts t ∧
    (∀ p err, msgWatchResolve t.Metadata.ID p err ∉ validateTask P v ts t) ∧
    (∀ p, msgWatchOutside t.Metadata.ID p ∉ validateTask P v ts t) ∧
    ∀ v2 : validator, validateTask P v2 ts t = validateTask P v ts t := by
  refine ⟨fun h => ?_, fun h => ?_, fun p err h => ?_, fun p h => ?_, fun v2 => ?_⟩
  · obtain ⟨s, hs⟩ := mem_validateTask_groupCmd P v ts t h
    rw [hn] at hs; cases hs
  · obtain ⟨s, hs⟩ := mem_validateTask_noCmd P v ts t h
    rw [hn] at hs; cases hs
  · obtain ⟨s, hs⟩ := mem_validateTask_watchResolve P v ts t p err h
    rw [hn] at hs; cases hs
  · obtain ⟨-, s, hs, -⟩ := mem_validateTask_watchOutside P v ts t p h
    rw [hn] at hs; cases hs
  · rw [validateTask_eq, validateTask_eq]
    have : watchOut P v2 t t.Metadata = watchOut P v t t.Metadata :=
      funext (watchOut_anchor_irrelevant P v2 v t hn)
    rw [this]

/-- C20 at a task of another variant that watches two paths. -/
theorem validateTask_nonScript_witness :
    sampleOther.asScript = none ∧
    validateTask samplePlatform ⟨"/elsewhere"⟩ sampleTasks sampleOther =
      validateTask samplePlatform ⟨"/work"⟩ sampleTasks sampleOther :=
  ⟨rfl, (validateTask_nonScript samplePlatform ⟨"/work"⟩ sampleTasks sampleOther rfl).2.2.2.2
    ⟨"/elsewhere"⟩⟩

/-- C18: the outcome of `validate` does not depend on the iteration orders, also
when the two loops use different orders: two runs both succeed or both fail, and
their collected problems split into the mismatched-key lines followed by the
per-task lines, each part a permutation of the corresponding part of the other
run; a failing run returns the header and its lines joined by newlines. -/
theorem validate_order_independent (P : Platform) (v : validator) (ts : Tasks)
    (k1 t1 k2 t2 : List (String × Task))
    (hk1 : k1.Perm ts.entries) (ht1 : t1.Perm ts.entries)
    (hk2 : k2.Perm ts.entries) (ht2 : t2.Perm ts.entries) :
    (validate P v ts k1 t1 = .ok () ↔ validate P v ts k2 t2 = .ok ()) ∧
    ((∃ m1, validate P v ts k1 t1 = .error m1) ↔ (∃ m2, validate P v ts k2 t2 = .error m2)) ∧
    (∃ key1 task1 key2 task2 : List String,
      validateProblems P v ts k1 t1 = key1 ++ task1 ∧
      validateProblems P v ts k2 t2 = key2 ++ task2 ∧
      key1.Perm key2 ∧ task1.Perm task2 ∧
      (∀ l ∈ key1 ++ key2, isMismatchedKeyProblem l = true) ∧
      (∀ l ∈ task1 ++ task2, isMismatchedKeyProblem l = false)) ∧
    (validateProblems P v ts k1 t1).Perm (validateProblems P v ts k2 t2) ∧
    (∀ m1, validate P v ts k1 t1 = .error m1 →
      m1 = Join (["invalid taskfile"] ++ validateProblems P v ts k1 t1) "\n") := by
  have hk : k1.Perm k2 := hk1.trans hk2.symm
  have ht : t1.Perm t2 := ht1.trans ht2.symm
  have hok : validate P v ts k1 t1 = .ok () ↔ validate P v ts k2 t2 = .ok () := by
    rw [validate_ok_iff_forall P v ts _ _ hk1 ht1, validate_ok_iff_forall P v ts _ _ hk2 ht2]
  have herr : ∀ k t, (∃ m, validate P v ts k t = .error m) ↔ ¬ validate P v ts k t = .ok () := by
    intro k t
    cases h : validate P v ts k t with
    | error m => simp
    | ok u => simp
  refine ⟨hok, ?_, ?_, ?_, ?_⟩
  · rw [herr, herr, hok]
  · refine ⟨k1.flatMap keyOut, t1.flatMap (taskOut P v ts), k2.flatMap keyOut,
      t2.flatMap (taskOut P v ts), validateProblems_eq P v ts k1 t1,
      validateProblems_eq P v ts k2 t2, hk.flatMap_right _, ht.flatMap_right _, ?_, ?_⟩
    · intro l hl
      rcases List.mem_append.1 hl with hl | hl <;>
      obtain ⟨e, -, he⟩ := List.mem_flatMap.1 hl <;>
      exact keyOut_mismatched e l he
    · intro l hl
      rcases List.mem_append.1 hl with hl | hl <;>
      obtain ⟨e, -, he⟩ := List.mem_flatMap.1 hl <;>
      exact taskOut_not_mismatched P v ts e l he
  · rw [validateProblems_eq, validateProblems_eq]
    exact List.Perm.append (hk.flatMap_right _) (ht.flatMap_right _)
  · intro m1 h
    unfold validate at h
    simp only at h
    split_ifs at h
    exact (Except.error.inj h).symm

/-- C18 at the three-task sample collection, iterated in two orders. -/
theorem validate_order_independent_witness :
    sampleTriggerTasks.entries.Perm sampleTriggerTasks.entries ∧
    sampleTriggerTasks.entries.reverse.Perm sampleTriggerTasks.entries ∧
    (validateProblems samplePlatform newValidator sampleTriggerTasks
        sampleTriggerTasks.entries sampleTriggerTasks.entries.reverse).Perm
      (validateProblems samplePlatform newValidator sampleTriggerTasks
        sampleTriggerTasks.entries.reverse sampleTriggerTasks.entries) :=
  ⟨List.Perm.refl _, List.reverse_perm _,
    (validate_order_independent samplePlatform newValidator sampleTriggerTasks
      sampleTriggerTasks.entries sampleTriggerTasks.entries.reverse
      sampleTriggerTasks.entries.reverse sampleTriggerTasks.entries
      (List.Perm.refl _) (List.reverse_perm _) (List.reverse_perm _) (List.Perm.refl _)).2.2.2.1⟩

/-! ## Lines of the report -/

/-- A text without newline is a single line. -/
theorem splitLines_of_no_newline (a : List Char) (ha : '\n' ∉ a) : splitLines a = [a] := by
  induction a with
  | nil => rfl
  | cons c cs ih =>
    have hc : c ≠ '\n' := fun h => ha (by simp [h])
    have hcs : '\n' ∉ cs := fun h => ha (List.mem_cons_of_mem _ h)
    simp [splitLines, hc, ih hcs]

/-- Splitting a text at the first newline, when the part before it has none. -/
theorem splitLines_append_newline (a rest : List Char) (ha : '\n' ∉ a) :
    splitLines (a ++ '\n' :: rest) = a :: splitLines rest := by
  induction a with
  | nil => simp [splitLines]
  | cons c cs ih =>
    have hc : c ≠ '\n' := fun h => ha (by simp [h])
    have hcs : '\n' ∉ cs := fun h => ha (List.mem_cons_of_mem _ h)
    simp [splitLines, hc, ih hcs]

/-- The lines of a first line followed by the body of a report whose problem
texts contain no newline. -/
theorem splitLines_reportBody (qs : List String) (a : List Char) (ha : '\n' ∉ a)
    (hq : ∀ q ∈ qs, '\n' ∉ q.data) :
    splitLines (a ++ (reportBody qs).data) = a :: qs.map (fun q => ("- " ++ q).data) := by
  induction qs generalizing a with
  | nil => simp [reportBody, splitLines_of_no_newline a ha]
  | cons q qs ih =>
    have h1 : (reportBody (q :: qs)).data =
        '\n' :: (("- " ++ q).data ++ (reportBody qs).data) := by
      simp [reportBody]
    have hq1 : '\n' ∉ ("- " ++ q).data := by
      have := hq q (by simp)
      simp [this]
    rw [h1, splitLines_append_newline a _ ha, ih _ hq1 (fun x hx => hq x (by simp [hx]))]
    simp

/-- C17, as stated, fails: a task whose type contains a newline yields one
detected problem, and the report splits into three lines instead of two. -/
theorem validate_lines_counterexample :
    validate samplePlatform newValidator (Tasks.single "x" sampleNewline)
        [("x", sampleNewline)] [("x", sampleNewline)] =
      .error ("invalid taskfile\n" ++
        "- Task 'x' has invalid type 'lo\nng'; must be 'long', 'short', or 'group'.") ∧
    (detectedProblems samplePlatform newValidator (Tasks.single "x" sampleNewline)
        [("x", sampleNewline)] [("x", sampleNewline)]).length = 1 ∧
    (Lines ("invalid taskfile\n" ++
        "- Task 'x' has invalid type 'lo\nng'; must be 'long', 'short', or 'group'.")).length
      = 3 := by
  decide

/-- C17 (amended): when `validate` fails and no detected problem text contains a
newline character, splitting the error text at newlines yields exactly the
header `invalid taskfile` followed by one line per detected problem, each
starting with `- `: 1 + N lines, N being the number of mismatched keys plus the
number of all `validateTask` problems. -/
theorem validate_lines (P : Platform) (v : validator) (ts : Tasks)
    (keyOrder taskOrder : List (String × Task)) (msg : String)
    (hk : keyOrder.Perm ts.entries) (ht : taskOrder.Perm ts.entries)
    (hfail : validate P v ts keyOrder taskOrder = .error msg)
    (hnl : ∀ q ∈ detectedProblems P v ts keyOrder taskOrder, '\n' ∉ q.data) :
    Lines msg = "invalid taskfile" ::
      (detectedProblems P v ts keyOrder taskOrder).map (fun q => "- " ++ q) ∧
    (Lines msg).length =
      1 + ((ts.entries.filter (fun e => e.1 ≠ e.2.Metadata.ID)).length +
        (ts.entries.map (fun e => (validateTask P v ts e.2).length)).sum) ∧
    (∀ l ∈ (Lines msg).tail, HasPrefix l "- " = true) := by
  have hmsg : msg = reportText (detectedProblems P v ts keyOrder taskOrder) := by
    rw [validate_eq_report] at hfail
    split_ifs at hfail
    exact (Except.error.inj hfail).symm
  have hlines : Lines msg = "invalid taskfile" ::
      (detectedProblems P v ts keyOrder taskOrder).map (fun q => "- " ++ q) := by
    rw [hmsg, Lines, reportText, String.data_append,
      splitLines_reportBody _ _ (by decide) hnl]
    simp only [List.map_cons, List.map_map, Function.comp_def, List.cons.injEq, true_and]
  refine ⟨hlines, ?_, ?_⟩
  · rw [hlines, List.length_cons, List.length_map, detectedProblems_length P v ts _ _ hk ht]
    omega
  · rw [hlines]
    intro l hl
    obtain ⟨q, -, rfl⟩ := List.mem_map.1 hl
    simp [HasPrefix, List.isPrefixOf]

/-- C17 (amended) at the collection that stores the group `a` under the key `k`. -/
theorem validate_lines_witness :
    sampleMismatched.entries.Perm sampleMismatched.entries ∧
    validate samplePlatform newValidator sampleMismatched sampleMismatched.entries
        sampleMismatched.entries =
      .error ("invalid taskfile\n- task 'a' has mismatched key 'k'\n" ++
        "- Task 'a' is a group, but has no dependencies. " ++
        "Groups must include at least one dependency.") ∧
    (∀ q ∈ detectedProblems samplePlatform newValidator sampleMismatched
        sampleMismatched.entries sampleMismatched.entries, '\n' ∉ q.data) ∧
    (Lines ("invalid taskfile\n- task 'a' has mismatched key 'k'\n" ++
        "- Task 'a' is a group, but has no dependencies. " ++
        "Groups must include at least one dependency.")).length = 1 + (1 + 1) :=
  ⟨List.Perm.refl _, by decide, by decide,
    (validate_lines samplePlatform newValidator sampleMismatched _ _ _
      (List.Perm.refl _) (List.Perm.refl _) (by decide) (by decide)).2.1⟩

/-! ## Order of the problems -/

theorem map_snd_flatMap {α : Type} (f : α → List (Rule × String)) (g : α → List String)
    (h : ∀ a, (f a).map Prod.snd = g a) (l : List α) :
    (l.flatMap f).map Prod.snd = l.flatMap g := by
  induction l with
  | nil => rfl
  | cons a as ih => simp [List.flatMap_cons, h, ih]

theorem typeRules_texts (t : Task) (md : TaskMetadata) :
    (typeRules t md).map Prod.snd = typeOut t md := by
  unfold typeRules typeOut
  cases t.asScript with
  | none => simp only; split_ifs <;> simp
  | some sd => simp only; split_ifs <;> simp

theorem triggerRules_texts (ts : Tasks) (md : TaskMetadata) (id : String) :
    (triggerRules ts md id).map Prod.snd = triggerOut ts md id := by
  unfold triggerRules triggerOut
  cases ts.get id with
  | none => rfl
  | some s => simp only; split_ifs <;> rfl

theorem watchRules_texts (P : Platform) (v : validator) (t : Task) (md : TaskMetadata)
    (w : String) : (watchRules P v t md w).map Prod.snd = watchOut P v t md w := by
  unfold watchRules watchOut
  cases t.asScript with
  | none => simp only; split_ifs <;> simp
  | some sd =>
    obtain ⟨s, d⟩ := sd
    simp only
    cases P.Abs (P.Join d w) with
    | error err => simp only; split_ifs <;> simp
    | ok abs => simp only; split_ifs <;> simp

/-- The texts of the run with rules are the result of `validateTask`. -/
theorem validateTaskRules_texts (P : Platform) (v : validator) (ts : Tasks) (t : Task) :
    (validateTaskRules P v ts t).map Prod.snd = validateTask P v ts t := by
  rw [validateTask_eq]
  unfold validateTaskRules
  simp only [List.map_append, typeRules_texts,
    map_snd_flatMap _ _ (triggerRules_texts ts t.Metadata),
    map_snd_flatMap _ _ (watchRules_texts P v t t.Metadata)]
  congr 1
  · split_ifs <;> rfl
  congr 1
  · split_ifs <;> rfl
  congr 1
  · refine map_snd_flatMap _ _ (fun c => ?_) _
    unfold whitespaceOut; split_ifs <;> rfl
  congr 1
  · split_ifs <;> rfl
  congr 2
  refine map_snd_flatMap _ _ (fun d => ?_) _
  unfold dependencyOut; cases ts.get d <;> rfl

theorem OrderedWithin.of_const (n : Nat) (l : List (Rule × String))
    (h : ∀ x ∈ l, x.1.block = n) : OrderedWithin n n l := by
  refine ⟨?_, fun x hx => by rw [h x hx]; exact ⟨le_refl _, le_refl _⟩⟩
  rw [List.pairwise_map]
  induction l with
  | nil => exact List.Pairwise.nil
  | cons a as ih =>
    refine List.Pairwise.cons (fun b hb => ?_) (ih (fun x hx => h x (List.mem_cons_of_mem _ hx)))
    rw [h a (List.mem_cons_self _ _), h b (List.mem_cons_of_mem _ hb)]

theorem OrderedWithin.append (a b c d : Nat) (l1 l2 : List (Rule × String))
    (h1 : OrderedWithin a b l1) (h2 : OrderedWithin c d l2)
    (hbc : b ≤ c) (hac : a ≤ c) (hbd : b ≤ d) : OrderedWithin a d (l1 ++ l2) := by
  refine ⟨?_, fun x hx => ?_⟩
  · rw [List.map_append, List.pairwise_append]
    refine ⟨h1.1, h2.1, fun x hx y hy => ?_⟩
    obtain ⟨x2, hx2, rfl⟩ := List.mem_map.1 hx
    obtain ⟨y2, hy2, rfl⟩ := List.mem_map.1 hy
    exact ((h1.2 x2 hx2).2.trans hbc).trans (h2.2 y2 hy2).1
  · rcases List.mem_append.1 hx with hx | hx
    · exact ⟨(h1.2 x hx).1, (h1.2 x hx).2.trans hbd⟩
    · exact ⟨hac.trans (h2.2 x hx).1, (h2.2 x hx).2⟩

theorem OrderedWithin.ite (c : Prop) [Decidable c] (r : Rule) (m : String) :
    OrderedWithin r.block r.block (if c then [(r, m)] else []) := by
  apply OrderedWithin.of_const
  intro x hx
  split_ifs at hx <;> simp_all

theorem typeRules_ordered (t : Task) (md : TaskMetadata) :
    OrderedWithin 5 9 (typeRules t md) := by
  unfold typeRules
  cases t.asScript with
  | none => simp only; split_ifs <;> simp [OrderedWithin, Rule.block]
  | some sd => simp only; split_ifs <;> simp [OrderedWithin, Rule.block]

theorem triggerRules_block (ts : Tasks) (md : TaskMetadata) (id : String) :
    ∀ x ∈ triggerRules ts md id, x.1.block = 11 := by
  intro x hx
  unfold triggerRules at hx
  cases h : ts.get id with
  | none => simp [h] at hx; rw [hx]; rfl
  | some s =>
    simp only [h] at hx
    split_ifs at hx
    · simp at hx; rw [hx]; rfl
    · simp at hx

theorem watchRules_block (P : Platform) (v : validator) (t : Task) (md : TaskMetadata)
    (w : String) : ∀ x ∈ watchRules P v t md w, x.1.block = 13 := by
  intro x hx
  unfold watchRules at hx
  rcases List.mem_append.1 hx with hx | hx
  · split_ifs at hx
    · simp at hx; rw [hx]; rfl
    · simp at hx
  · cases hs : t.asScript with
    | none => simp [hs] at hx
    | some sd =>
      obtain ⟨s, d⟩ := sd
      simp only [hs] at hx
      cases ha : P.Abs (P.Join d w) with
      | error err => simp [ha] at hx; rw [hx]; rfl
      | ok abs =>
        simp only [ha] at hx
        split_ifs at hx
        · simp at hx; rw [hx]; rfl
        · simp at hx

theorem flatMap_block {α : Type} (f : α → List (Rule × String)) (n : Nat)
    (h : ∀ a, ∀ x ∈ f a, x.1.block = n) (l : List α) :
    OrderedWithin n n (l.flatMap f) := by
  apply OrderedWithin.of_const
  intro x hx
  obtain ⟨a, -, ha⟩ := List.mem_flatMap.1 hx
  exact h a x ha

/-- C15, as stated, fails: the task `notify` lists the long task `serve` before
the absent `zzz`, so the rule 9 problem of `serve` is returned before the rule 8
problem of `zzz`. -/
theorem validateTask_rule_order_counterexample :
    validateTask samplePlatform newValidator sampleTriggerTasks sampleNotify =
      [msgTriggerLong "notify" "serve", msgTriggerMissing "notify" "zzz"] ∧
    validateTaskRules samplePlatform newValidator sampleTriggerTasks sampleNotify =
      [(Rule.r9, msgTriggerLong "notify" "serve"),
        (Rule.r8, msgTriggerMissing "notify" "zzz")] ∧
    ¬ ((validateTaskRules samplePlatform newValidator sampleTriggerTasks sampleNotify).map
      (fun x => x.1.number)).Pairwise (fun a b => a ≤ b) := by
  decide

/-- C15 (amended): the problems returned by `validateTask` are ordered by the
rule table with rules 8 and 9 taken together and rules 10 and 11 taken together:
the returned texts are those of the run with rules, and no problem of a later
block appears before a problem of an earlier block. -/
theorem validateTask_block_order (P : Platform) (v : validator) (ts : Tasks) (t : Task) :
    (validateTaskRules P v ts t).map Prod.snd = validateTask P v ts t ∧
    ((validateTaskRules P v ts t).map (fun x => x.1.block)).Pairwise (fun a b => a ≤ b) := by
  refine ⟨validateTaskRules_texts P v ts t, ?_⟩
  have h : OrderedWithin 1 13 (validateTaskRules P v ts t) := by
    unfold validateTaskRules
    refine OrderedWithin.append 1 1 2 13 _ _ (OrderedWithin.ite _ Rule.r1 _) ?_
      (by decide) (by decide) (by decide)
    refine OrderedWithin.append 2 2 3 13 _ _ (OrderedWithin.ite _ Rule.r2 _) ?_
      (by decide) (by decide) (by decide)
    refine OrderedWithin.append 3 3 4 13 _ _ (flatMap_block _ 3 (fun c x hx => ?_) _) ?_
      (by decide) (by decide) (by decide)
    · split_ifs at hx
      · simp at hx; rw [hx]; rfl
      · simp at hx
    refine OrderedWithin.append 4 4 5 13 _ _ (OrderedWithin.ite _ Rule.r4 _) ?_
      (by decide) (by decide) (by decide)
    refine OrderedWithin.append 5 9 10 13 _ _ (typeRules_ordered t _) ?_
      (by decide) (by decide) (by decide)
    refine OrderedWithin.append 10 10 11 13 _ _ (flatMap_block _ 10 (fun d x hx => ?_) _) ?_
      (by decide) (by decide) (by decide)
    · cases hg : ts.get d with
      | none => simp [hg] at hx; rw [hx]; rfl
      | some s => simp [hg] at hx
    exact OrderedWithin.append 11 11 13 13 _ _
      (flatMap_block _ 11 (triggerRules_block ts t.Metadata) _)
      (flatMap_block _ 13 (watchRules_block P v t t.Metadata) _)
      (by decide) (by decide) (by decide)
  exact h.1

end Run
